import Mathlib

/-!
# Order Now: cart store, renderers and UI handlers of `js/main.js`

A shallow embedding of the script. The two global variables
(`menuCompleto`, `carrito`) and the parts of the DOM that the script reads or
writes are the fields of one record, `Estado`. Every function of the script is
a function on `Estado`. A handler that throws keeps the assignments it made
before the throw, so handlers return a `Resultado`: the state reached and
whether an exception escaped.

Numbers: identifiers and quantities are integers (`Int`). Prices, subtotals
and the running total are values of the type Number, `Numero`: a finite
binary64 value is written `m × 2^e`, and products and sums are rounded to the
nearest binary64 value, ties to even, as the language does.
-/

namespace OrderNow

/-! ## Data model -/

/-- A value of the type Number: the finite value `m × 2^e`, an infinity, or
`NaN`. The two zeros are one value here: the script only multiplies, adds and
calls `toFixed(2)`, and none of the three tells them apart. -/
inductive Numero where
  | finito (m : Int) (e : Int)
  | infinito (negativo : Bool)
  | nan
  deriving DecidableEq

/-- An element of `data.items` (one `CatalogItem`). -/
structure Producto where
  id : Int
  nombre : String
  descripcion : String
  imagen : String
  categoria : String
  precio : Numero
  deriving DecidableEq

/-- An element of the array `carrito`: the object `{ id, cantidad }`. -/
structure Linea where
  id : Int
  cantidad : Int
  deriving DecidableEq, Repr

/-- The values that `generarHTML` interpolates into one `card-plato` block. -/
structure Tarjeta where
  imagen : String
  nombre : String
  descripcion : String
  precioTexto : String
  idAgregar : Int
  deriving DecidableEq

/-- The values that `renderizarCarrito` interpolates into one `cart-item`
block. `idMenos` and `idMas` are the identifiers passed by the two buttons to
`cambiarCantidadCarrito(id, -1)` and `cambiarCantidadCarrito(id, 1)`. -/
structure Fila where
  nombre : String
  precioTexto : String
  idMenos : Int
  cantidad : Int
  idMas : Int
  subtotalTexto : String
  deriving DecidableEq

/-- The content of `#cart-items-container`. -/
inductive ContenidoCarrito where
  | inicial
  | estadoVacio
  | filas (fs : List Fila)
  deriving DecidableEq

/-- The globals of the script together with the DOM state it touches. -/
structure Estado where
  menuCompleto : List Producto
  carrito : List Linea
  sideOpen : Bool
  overDisplay : String
  modalDisplay : String
  cartCount : Int
  cartItems : ContenidoCarrito
  cartTotalPrice : String
  containerPrincipales : List Tarjeta
  containerPostres : List Tarjeta
  alertas : List String
  deriving DecidableEq

/-- The state a handler leaves behind, and whether a `TypeError` escaped it. -/
structure Resultado where
  estado : Estado
  lanzado : Bool
  deriving DecidableEq

/-! ## Arithmetic of the type Number -/

/-- The number of binary digits of `n`, with `f` steps allowed. -/
def bitsAux : Nat → Nat → Nat
  | 0, _ => 0
  | f + 1, n => if n = 0 then 0 else bitsAux f (n / 2) + 1

/-- The number of binary digits of `n` (zero for `n = 0`). -/
def bits (n : Nat) : Nat := bitsAux n n

/-- The binary64 value nearest to the exact value `m × 2^e`, ties to the even
significand: 53 binary digits, the least exponent `-1074`, and an infinity
from `2^1024` on. -/
def redondear (m e : Int) : Numero :=
  if m = 0 then .finito 0 0
  else
    let a := m.natAbs
    let q : Int := max (e + (bits a : Nat) - 53) (-1074)
    if q ≤ e then
      if 1024 < e + (bits a : Nat) then .infinito (decide (m < 0)) else .finito m e
    else
      let sh := (q - e).toNat
      let t := a / 2 ^ sh
      let r := a % 2 ^ sh
      let half := 2 ^ (sh - 1)
      let n := if half < r ∨ (r = half ∧ t % 2 = 1) then t + 1 else t
      if 1024 < q + (bits n : Nat) then .infinito (decide (m < 0))
      else .finito (if m < 0 then -(n : Int) else (n : Int)) q

/-- The operator `*` on two values of the type Number. -/
def multiplicar : Numero → Numero → Numero
  | .finito m1 e1, .finito m2 e2 => redondear (m1 * m2) (e1 + e2)
  | .finito m _, .infinito s => if m = 0 then .nan else .infinito (s != decide (m < 0))
  | .infinito s, .finito m _ => if m = 0 then .nan else .infinito (s != decide (m < 0))
  | .infinito s1, .infinito s2 => .infinito (s1 != s2)
  | _, _ => .nan

/-- The operator `+` on two values of the type Number. -/
def sumar : Numero → Numero → Numero
  | .finito m1 e1, .finito m2 e2 =>
    let e := min e1 e2
    redondear (m1 * 2 ^ (e1 - e).toNat + m2 * 2 ^ (e2 - e).toNat) e
  | .finito _ _, .infinito s => .infinito s
  | .infinito s, .finito _ _ => .infinito s
  | .infinito s1, .infinito s2 => if s1 = s2 then .infinito s1 else .nan
  | _, _ => .nan

/-- The Number that holds the integer `z`. -/
def deEntero (z : Int) : Numero := redondear z 0

/-- Whether `x` is the finite value `m × 2^e`. -/
def igualA (x : Numero) (m e : Int) : Bool :=
  match x with
  | .finito m1 e1 =>
    let e0 := min e1 e
    m1 * 2 ^ (e1 - e0).toNat == m * 2 ^ (e - e0).toNat
  | _ => false

/-! ## `Number.prototype.toFixed(2)` -/

/-- The search of `Number::toString` for the integer `A` of `n` decimal digits:
the least count `k` of significant digits and the integer `s` of `k` digits
for which `s × 10^(n-k)` is a decimal text of the Number `A`, nearest to `A`
when two integers qualify. The first argument bounds the steps. -/
def buscarDigitos (A n : Nat) : Nat → Nat → Nat × Nat
  | 0, _ => (A, n)
  | f + 1, k =>
    let P := 10 ^ (n - k)
    let lo := A / P
    let hi := lo + 1
    let okLo := igualA (redondear ((lo * P : Nat) : Int) 0) A 0
    let okHi := decide (hi < 10 ^ k) && igualA (redondear ((hi * P : Nat) : Int) 0) A 0
    if okLo && okHi then
      (if A - lo * P < hi * P - A then (lo, k)
       else if hi * P - A < A - lo * P then (hi, k)
       else if lo % 2 = 0 then (lo, k) else (hi, k))
    else if okLo then (lo, k)
    else if okHi then (hi, k)
    else if k < n then buscarDigitos A n f (k + 1) else (A, n)

/-- The text of `Number::toString` for an integer value of at least `10^21`:
the shortest significant digits that read back as the same Number, a point
after the first one when there are several, then `e+` and the decimal
exponent. -/
def numeroExponencial (A : Nat) : String :=
  let n := (Nat.toDigits 10 A).length
  let e := n - 1
  match Nat.toDigits 10 (buscarDigitos A n n 1).1 with
  | [] => "0"
  | [d] => String.mk [d] ++ "e+" ++ toString e
  | d :: ds => String.mk (d :: '.' :: ds) ++ "e+" ++ toString e

/-- The last two decimal digits of `n`. -/
def dosDigitos (n : Nat) : String :=
  String.mk [Nat.digitChar (n / 10 % 10), Nat.digitChar (n % 10)]

/-- The method `toFixed(2)`. For a finite value `m × 2^e = ± u / d`: a minus
sign for a negative value, then, from `10^21` on, the text of `toString` (a
Number of that size is an integer); below, the integer `n` nearest to
`100 × u / d`, the larger one on a tie, written with a point before its last
two digits. -/
def toFixed2 : Numero → String
  | .nan => "NaN"
  | .infinito false => "Infinity"
  | .infinito true => "-Infinity"
  | .finito m e =>
    let s := if m < 0 then "-" else ""
    let u := m.natAbs * 2 ^ e.toNat
    let d := 2 ^ (-e).toNat
    if 10 ^ 21 * d ≤ u then
      s ++ numeroExponencial (u / d)
    else
      let n := (2 * 100 * u + d) / (2 * d)
      s ++ toString (n / 100) ++ "." ++ dosDigitos n

/-! ## Menu renderer -/

/-- The arrow function `generarHTML`: one card for each element of the list. -/
def generarHTML (lista : List Producto) : List Tarjeta :=
  lista.map (fun plato =>
    { imagen := plato.imagen
      nombre := plato.nombre
      descripcion := plato.descripcion
      precioTexto := toFixed2 plato.precio ++ "€"
      idAgregar := plato.id })

/-- The function `renderizarMenu`. -/
def renderizarMenu (s : Estado) (items : List Producto) : Estado :=
  let principales := items.filter (fun item => item.categoria == "Principales")
  let postres := items.filter (fun item => item.categoria == "Postres")
  { s with
    containerPrincipales := generarHTML principales
    containerPostres := generarHTML postres }

/-! ## Cart store -/

/-- The result of `lista.find(p => p.id === id)` on the cart. -/
def buscarLinea (carrito : List Linea) (id : Int) : Option Linea :=
  carrito.find? (fun p => p.id == id)

/-- The result of `menuCompleto.find(p => p.id === id)`. -/
def buscarProducto (menu : List Producto) (id : Int) : Option Producto :=
  menu.find? (fun p => p.id == id)

/-- The assignment `item.cantidad += cambio` on the object that `find`
returned: the first line with the identifier changes in place. -/
def sumarAlPrimero (id : Int) (cambio : Int) : List Linea → List Linea
  | [] => []
  | p :: ps =>
    if p.id == id then { p with cantidad := p.cantidad + cambio } :: ps
    else p :: sumarAlPrimero id cambio ps

/-- The statement `const totalQty = carrito.reduce((acc, p) => acc + p.cantidad, 0)`. -/
def totalQty (carrito : List Linea) : Int :=
  carrito.foldl (fun acc p => acc + p.cantidad) 0

/-! ## Cart renderer -/

/-- The callback of `carrito.map` in `renderizarCarrito`, applied from the
first line to the last with the running value of `totalAcumulado`. The result
is `none` when `producto` is `undefined` for some line, where reading
`producto.precio` throws. -/
def mapearCarrito (menu : List Producto) :
    List Linea → Numero → Option (List Fila × Numero)
  | [], totalAcumulado => some ([], totalAcumulado)
  | itemCarrito :: resto, totalAcumulado =>
    match buscarProducto menu itemCarrito.id with
    | none => none
    | some producto =>
      let subtotal := multiplicar producto.precio (deEntero itemCarrito.cantidad)
      match mapearCarrito menu resto (sumar totalAcumulado subtotal) with
      | none => none
      | some (filas, total) =>
        some ({ nombre := producto.nombre
                precioTexto := toFixed2 producto.precio ++ "€"
                idMenos := itemCarrito.id
                cantidad := itemCarrito.cantidad
                idMas := itemCarrito.id
                subtotalTexto := toFixed2 subtotal ++ "€" } :: filas, total)

/-- The function `renderizarCarrito`. When the callback throws, neither
`container.innerHTML` nor `totalDisplay.innerText` has been assigned. -/
def renderizarCarrito (s : Estado) : Resultado :=
  if s.carrito.length = 0 then
    ⟨{ s with cartItems := .estadoVacio, cartTotalPrice := "0.00€" }, false⟩
  else
    match mapearCarrito s.menuCompleto s.carrito (.finito 0 0) with
    | none => ⟨s, true⟩
    | some (filas, totalAcumulado) =>
      ⟨{ s with
          cartItems := .filas filas
          cartTotalPrice := toFixed2 totalAcumulado ++ "€" }, false⟩

/-- The function `actualizar`: the badge receives the total quantity, and an
open side panel is rendered again. -/
def actualizar (s : Estado) : Resultado :=
  let s1 := { s with cartCount := totalQty s.carrito }
  if s1.sideOpen then renderizarCarrito s1 else ⟨s1, false⟩

/-- The function `agregar`. -/
def agregar (s : Estado) (id : Int) : Resultado :=
  match buscarLinea s.carrito id with
  | some _ => actualizar { s with carrito := sumarAlPrimero id 1 s.carrito }
  | none => actualizar { s with carrito := s.carrito ++ [{ id := id, cantidad := 1 }] }

/-- The function `cambiarCantidadCarrito`. -/
def cambiarCantidadCarrito (s : Estado) (id : Int) (cambio : Int) : Resultado :=
  match buscarLinea s.carrito id with
  | some item =>
    let c := sumarAlPrimero id cambio s.carrito
    if item.cantidad + cambio ≤ 0 then
      actualizar { s with carrito := c.filter (fun p => p.id != id) }
    else
      actualizar { s with carrito := c }
  | none => actualizar s

/-! ## UI handlers -/

/-- The `onclick` handler of `#cart-btn`. -/
def abrirCarrito (s : Estado) : Resultado :=
  renderizarCarrito { s with sideOpen := true, overDisplay := "block" }

/-- The function `cerrarCarrito`. -/
def cerrarCarrito (s : Estado) : Estado :=
  { s with sideOpen := false, overDisplay := "none" }

/-- The `onclick` handler of `#open-modal-empty`. -/
def abrirModal (s : Estado) : Estado :=
  { s with modalDisplay := "flex" }

/-- The `onclick` handler of `#cancel-vaciar`. -/
def cancelarVaciar (s : Estado) : Estado :=
  { s with modalDisplay := "none" }

/-- The `onclick` handler of `#confirm-vaciar`. -/
def confirmarVaciar (s : Estado) : Resultado :=
  let r := actualizar { s with carrito := [] }
  if r.lanzado then r else ⟨{ r.estado with modalDisplay := "none" }, false⟩

/-- The text of the notice for a checkout with an empty cart. -/
def avisoVacio : String := "El carrito está vacío"

/-- The text of the notice for a successful checkout. -/
def avisoExito : String := "¡Pedido tramitado con éxito!"

/-- The `onclick` handler of `#btn-checkout`. -/
def checkout (s : Estado) : Resultado :=
  if s.carrito.length = 0 then
    ⟨{ s with alertas := s.alertas ++ [avisoVacio] }, false⟩
  else
    let s1 := { s with alertas := s.alertas ++ [avisoExito] }
    let r := actualizar { s1 with carrito := [] }
    if r.lanzado then r else ⟨cerrarCarrito r.estado, false⟩

/-- The body of the `try` block of `iniciarApp` once `data.items` has arrived. -/
def menuCargado (s : Estado) (items : List Producto) : Estado :=
  renderizarMenu { s with menuCompleto := items } items

/-! ## Event loop -/

/-- The events that the page reacts to. -/
inductive Evento where
  | agregar (id : Int)
  | cambiarCantidadCarrito (id : Int) (cambio : Int)
  | abrirCarrito
  | cerrarCarrito
  | abrirModal
  | cancelarVaciar
  | confirmarVaciar
  | checkout
  | menuCargado (items : List Producto)

/-- One reaction of the page. -/
def paso (s : Estado) : Evento → Resultado
  | .agregar id => agregar s id
  | .cambiarCantidadCarrito id cambio => cambiarCantidadCarrito s id cambio
  | .abrirCarrito => abrirCarrito s
  | .cerrarCarrito => ⟨cerrarCarrito s, false⟩
  | .abrirModal => ⟨abrirModal s, false⟩
  | .cancelarVaciar => ⟨cancelarVaciar s, false⟩
  | .confirmarVaciar => confirmarVaciar s
  | .checkout => checkout s
  | .menuCargado items => ⟨menuCargado s items, false⟩

/-- A sequence of events, one after the other. An exception that escapes a
handler ends that handler only: the next event finds the state as the failed
handler left it. -/
def ejecutar (s : Estado) (evs : List Evento) : Estado :=
  evs.foldl (fun t e => (paso t e).estado) s

/-! ## Definitions used in the statements

`carritoAgregar` and `carritoCambiar` are the cart component of the two cart
functions above; `precioDe`, `subtotalDe`, `totalAcumuladoDe` and
`filaEsperada` are the values that the cart renderer computes for a line that
resolves. `valor`, `EsDoble`, `precioExacto`, `subtotalExacto`, `totalExacto`,
`SinRedondeo` and `dosDecimales` speak of exact numbers: they are the terms of
the specification, to be compared with what the script computes. -/

/-- The cart after `agregar(id)`, as a function of the cart before. -/
def carritoAgregar (c : List Linea) (id : Int) : List Linea :=
  match buscarLinea c id with
  | some _ => sumarAlPrimero id 1 c
  | none => c ++ [{ id := id, cantidad := 1 }]

/-- The cart after `cambiarCantidadCarrito(id, cambio)`, as a function of the
cart before. -/
def carritoCambiar (c : List Linea) (id : Int) (cambio : Int) : List Linea :=
  match buscarLinea c id with
  | some item =>
    if item.cantidad + cambio ≤ 0 then
      (sumarAlPrimero id cambio c).filter (fun p => p.id != id)
    else sumarAlPrimero id cambio c
  | none => c

/-- Every line of the cart has a quantity above zero. -/
def CantidadesPositivas (c : List Linea) : Prop :=
  ∀ l ∈ c, 0 < l.cantidad

/-- No two lines of the cart have the same identifier. -/
def IdsUnicos (c : List Linea) : Prop :=
  (c.map (fun l => l.id)).Nodup

/-- The `precio` of the catalog item that `find` returns for `id`. -/
def precioDe (menu : List Producto) (id : Int) : Numero :=
  match buscarProducto menu id with
  | some p => p.precio
  | none => .nan

/-- The value of `subtotal` for a line: `producto.precio * itemCarrito.cantidad`. -/
def subtotalDe (menu : List Producto) (l : Linea) : Numero :=
  multiplicar (precioDe menu l.id) (deEntero l.cantidad)

/-- The value of `totalAcumulado` after the lines of the cart, first to last. -/
def totalAcumuladoDe (menu : List Producto) (c : List Linea) : Numero :=
  c.foldl (fun acc l => sumar acc (subtotalDe menu l)) (.finito 0 0)

/-- The row of a line whose identifier the catalog resolves. -/
def filaEsperada (menu : List Producto) (l : Linea) : Fila :=
  match buscarProducto menu l.id with
  | some p =>
    { nombre := p.nombre
      precioTexto := toFixed2 p.precio ++ "€"
      idMenos := l.id
      cantidad := l.cantidad
      idMas := l.id
      subtotalTexto := toFixed2 (subtotalDe menu l) ++ "€" }
  | none =>
    { nombre := "", precioTexto := "", idMenos := l.id, cantidad := l.cantidad,
      idMas := l.id, subtotalTexto := "" }

/-- The exact value of a finite Number (zero for the others). -/
def valor : Numero → ℚ
  | .finito m e => (m : ℚ) * (2 : ℚ) ^ e
  | _ => 0

/-- The rational `x` is a finite binary64 value: a significand below `2^53`
in absolute value and an exponent from `-1074` to `971`. -/
def EsDoble (x : ℚ) : Prop :=
  ∃ m e : Int, m.natAbs < 2 ^ 53 ∧ -1074 ≤ e ∧ e ≤ 971 ∧ x = (m : ℚ) * (2 : ℚ) ^ e

/-- The exact unit price of the first catalog item with the identifier `id`
(zero when there is none). -/
def precioExacto (menu : List Producto) (id : Int) : ℚ :=
  match menu.filter (fun p => decide (p.id = id)) with
  | p :: _ => valor p.precio
  | [] => 0

/-- The exact product of the unit price of a line by its quantity. -/
def subtotalExacto (menu : List Producto) (l : Linea) : ℚ :=
  precioExacto menu l.id * (l.cantidad : ℚ)

/-- The exact sum over the lines of the cart of price times quantity. -/
def totalExacto (menu : List Producto) (c : List Linea) : ℚ :=
  (c.map (subtotalExacto menu)).sum

/-- No operation of the total rounds: every quantity, every product of price
and quantity and every partial sum, in cart order, is a binary64 value. -/
def SinRedondeo (menu : List Producto) (c : List Linea) : Prop :=
  (∀ l ∈ c, EsDoble (l.cantidad : ℚ) ∧ EsDoble (subtotalExacto menu l)) ∧
  ∀ k : Nat, EsDoble (totalExacto menu (c.take k))

/-- A number written with exactly two decimal places: an optional minus sign,
the integer part, a point and two digits, the value rounded to the nearest
hundredth (a half rounds away from zero). -/
def dosDecimales (x : ℚ) : String :=
  (if x < 0 then "-" else "") ++ toString ((round (|x| * 100)).toNat / 100) ++ "." ++
    String.mk [Char.ofNat (48 + (round (|x| * 100)).toNat / 10 % 10),
      Char.ofNat (48 + (round (|x| * 100)).toNat % 10)]

/-- The state of the page before any event, with the catalog given. -/
def estadoInicial (menu : List Producto) : Estado :=
  { menuCompleto := menu
    carrito := []
    sideOpen := false
    overDisplay := ""
    modalDisplay := ""
    cartCount := 0
    cartItems := .inicial
    cartTotalPrice := ""
    containerPrincipales := []
    containerPostres := []
    alertas := [] }

/-- A catalog item of identifier `id` and unit price `precio`. -/
def plato (id : Int) (precio : Numero) : Producto :=
  { id := id, nombre := "Plato", descripcion := "", imagen := "",
    categoria := "Principales", precio := precio }

/-- A catalog of two items, of prices `10^16` and `0.5`, and one unit of each
in the cart. -/
def estadoRedondeo : Estado :=
  { estadoInicial [plato 1 (.finito (10 ^ 16) 0), plato 2 (.finito 1 (-1))] with
    carrito := [⟨1, 1⟩, ⟨2, 1⟩] }

/-- A catalog of one item of price `10^21` and one unit of it in the cart. -/
def estadoExponencial : Estado :=
  { estadoInicial [plato 1 (.finito (10 ^ 21) 0)] with carrito := [⟨1, 1⟩] }

/-- A catalog of one item of price `9.50` and two units of it in the cart. -/
def estadoDosUnidades : Estado :=
  { estadoInicial [plato 1 (.finito 19 (-1))] with carrito := [⟨1, 2⟩] }

/-! ## Lemmas: the renderer and `actualizar` leave the cart alone -/

@[simp]
theorem renderizarCarrito_carrito (s : Estado) :
    (renderizarCarrito s).estado.carrito = s.carrito := by
  unfold renderizarCarrito
  split
  · rfl
  · split <;> rfl

@[simp]
theorem renderizarCarrito_cartCount (s : Estado) :
    (renderizarCarrito s).estado.cartCount = s.cartCount := by
  unfold renderizarCarrito
  split
  · rfl
  · split <;> rfl

@[simp]
theorem renderizarCarrito_menuCompleto (s : Estado) :
    (renderizarCarrito s).estado.menuCompleto = s.menuCompleto := by
  unfold renderizarCarrito
  split
  · rfl
  · split <;> rfl

@[simp]
theorem renderizarCarrito_sideOpen (s : Estado) :
    (renderizarCarrito s).estado.sideOpen = s.sideOpen := by
  unfold renderizarCarrito
  split
  · rfl
  · split <;> rfl

@[simp]
theorem renderizarCarrito_overDisplay (s : Estado) :
    (renderizarCarrito s).estado.overDisplay = s.overDisplay := by
  unfold renderizarCarrito
  split
  · rfl
  · split <;> rfl

@[simp]
theorem renderizarCarrito_modalDisplay (s : Estado) :
    (renderizarCarrito s).estado.modalDisplay = s.modalDisplay := by
  unfold renderizarCarrito
  split
  · rfl
  · split <;> rfl

@[simp]
theorem renderizarCarrito_alertas (s : Estado) :
    (renderizarCarrito s).estado.alertas = s.alertas := by
  unfold renderizarCarrito
  split
  · rfl
  · split <;> rfl

theorem renderizarCarrito_vacio (s : Estado) (h : s.carrito = []) :
    renderizarCarrito s =
      ⟨{ s with cartItems := .estadoVacio, cartTotalPrice := "0.00€" }, false⟩ := by
  unfold renderizarCarrito
  simp [h]

@[simp]
theorem actualizar_carrito (s : Estado) :
    (actualizar s).estado.carrito = s.carrito := by
  unfold actualizar
  dsimp only
  split <;> simp

@[simp]
theorem actualizar_cartCount (s : Estado) :
    (actualizar s).estado.cartCount = totalQty s.carrito := by
  unfold actualizar
  dsimp only
  split <;> simp

@[simp]
theorem actualizar_sideOpen (s : Estado) :
    (actualizar s).estado.sideOpen = s.sideOpen := by
  unfold actualizar
  dsimp only
  split <;> simp

@[simp]
theorem actualizar_overDisplay (s : Estado) :
    (actualizar s).estado.overDisplay = s.overDisplay := by
  unfold actualizar
  dsimp only
  split <;> simp

@[simp]
theorem actualizar_alertas (s : Estado) :
    (actualizar s).estado.alertas = s.alertas := by
  unfold actualizar
  dsimp only
  split <;> simp

@[simp]
theorem actualizar_menuCompleto (s : Estado) :
    (actualizar s).estado.menuCompleto = s.menuCompleto := by
  unfold actualizar
  dsimp only
  split <;> simp

theorem actualizar_vacio_lanzado (s : Estado) (h : s.carrito = []) :
    (actualizar s).lanzado = false := by
  unfold actualizar
  dsimp only
  split
  · rw [renderizarCarrito_vacio _ (by simpa using h)]
  · rfl

theorem agregar_carrito (s : Estado) (id : Int) :
    (agregar s id).estado.carrito = carritoAgregar s.carrito id := by
  unfold agregar carritoAgregar
  split <;> simp

theorem cambiarCantidadCarrito_carrito (s : Estado) (id cambio : Int) :
    (cambiarCantidadCarrito s id cambio).estado.carrito =
      carritoCambiar s.carrito id cambio := by
  unfold cambiarCantidadCarrito carritoCambiar
  split
  · dsimp only
    split <;> simp
  · simp

theorem confirmarVaciar_carrito (s : Estado) :
    (confirmarVaciar s).estado.carrito = [] := by
  unfold confirmarVaciar
  dsimp only
  split <;> simp

theorem checkout_carrito (s : Estado) : (checkout s).estado.carrito = [] := by
  unfold checkout
  split
  · rename_i h
    simpa using h
  · dsimp only
    split <;> simp [cerrarCarrito]

/-! ## Lemmas: lists of lines -/

theorem buscarLinea_none_iff (c : List Linea) (id : Int) :
    buscarLinea c id = none ↔ ∀ x ∈ c, x.id ≠ id := by
  simp [buscarLinea]

theorem buscarLinea_append_cons (pre post : List Linea) (l : Linea) (id : Int)
    (hl : l.id = id) (hpre : ∀ x ∈ pre, x.id ≠ id) :
    buscarLinea (pre ++ l :: post) id = some l := by
  induction pre with
  | nil => simp [buscarLinea, hl]
  | cons a pre ih =>
    have ha : a.id ≠ id := hpre a (by simp)
    have := ih (fun x hx => hpre x (by simp [hx]))
    simpa [buscarLinea, ha] using this

theorem sumarAlPrimero_append_cons (pre post : List Linea) (l : Linea)
    (id cambio : Int) (hl : l.id = id) (hpre : ∀ x ∈ pre, x.id ≠ id) :
    sumarAlPrimero id cambio (pre ++ l :: post) =
      pre ++ { l with cantidad := l.cantidad + cambio } :: post := by
  induction pre with
  | nil => simp [sumarAlPrimero, hl]
  | cons a pre ih =>
    have ha : a.id ≠ id := hpre a (by simp)
    have := ih (fun x hx => hpre x (by simp [hx]))
    simp [sumarAlPrimero, ha, this]

theorem sumarAlPrimero_ids (id cambio : Int) (c : List Linea) :
    (sumarAlPrimero id cambio c).map (fun l => l.id) = c.map (fun l => l.id) := by
  induction c with
  | nil => rfl
  | cons a c ih =>
    unfold sumarAlPrimero
    split <;> simp [ih]

theorem sumarAlPrimero_sin_linea (id cambio : Int) (c : List Linea)
    (h : ∀ x ∈ c, x.id ≠ id) : sumarAlPrimero id cambio c = c := by
  induction c with
  | nil => rfl
  | cons a c ih =>
    have ha : a.id ≠ id := h a (by simp)
    simp [sumarAlPrimero, ha, ih (fun x hx => h x (by simp [hx]))]

theorem sumarAlPrimero_filter (id cambio : Int) (c : List Linea) :
    (sumarAlPrimero id cambio c).filter (fun p => p.id != id) =
      c.filter (fun p => p.id != id) := by
  induction c with
  | nil => rfl
  | cons a c ih =>
    unfold sumarAlPrimero
    by_cases ha : a.id = id
    · simp [ha]
    · simp [ha, ih]

theorem filter_sin_linea (id : Int) (c : List Linea) (h : ∀ x ∈ c, x.id ≠ id) :
    c.filter (fun p => p.id != id) = c := by
  rw [List.filter_eq_self]
  intro x hx
  simpa using h x hx

theorem totalQty_eq_sum (c : List Linea) :
    totalQty c = (c.map (fun l => l.cantidad)).sum := by
  have h : ∀ (c : List Linea) (a : Int),
      c.foldl (fun acc p => acc + p.cantidad) a = a + (c.map (fun l => l.cantidad)).sum := by
    intro c
    induction c with
    | nil => intro a; simp
    | cons x c ih => intro a; simp [ih, add_assoc]
  simpa [totalQty] using h c 0

theorem buscarLinea_some_id (c : List Linea) (id : Int) (item : Linea)
    (h : buscarLinea c id = some item) : item.id = id ∧ item ∈ c := by
  unfold buscarLinea at h
  have h1 := List.find?_some h
  have h2 := List.mem_of_find?_eq_some h
  exact ⟨by simpa using h1, h2⟩

theorem mem_sumarAlPrimero (id cambio : Int) (c : List Linea) (item : Linea)
    (h : buscarLinea c id = some item) :
    ∀ l ∈ sumarAlPrimero id cambio c,
      l ∈ c ∨ l = { item with cantidad := item.cantidad + cambio } := by
  induction c with
  | nil => simp [buscarLinea] at h
  | cons a c ih =>
    intro l hl
    by_cases ha : a.id = id
    · have hitem : item = a := by
        simpa [buscarLinea, ha] using h.symm
      subst hitem
      simp only [sumarAlPrimero, ha, beq_self_eq_true, if_true, List.mem_cons] at hl
      rcases hl with hl | hl
      · exact Or.inr (by simp [hl, ha])
      · exact Or.inl (by simp [hl])
    · have h2 : buscarLinea c id = some item := by
        simpa [buscarLinea, ha] using h
      have hl2 : l = a ∨ l ∈ sumarAlPrimero id cambio c := by
        simpa [sumarAlPrimero, ha] using hl
      rcases hl2 with hl2 | hl2
      · exact Or.inl (by simp [hl2])
      · rcases ih h2 l hl2 with h3 | h3
        · exact Or.inl (by simp [h3])
        · exact Or.inr h3

/-! ## Lemmas: the two invariants of the cart -/

theorem carritoAgregar_positivas (c : List Linea) (id : Int)
    (h : CantidadesPositivas c) : CantidadesPositivas (carritoAgregar c id) := by
  unfold carritoAgregar
  split
  · rename_i item hitem
    intro l hl
    rcases mem_sumarAlPrimero id 1 c item hitem l hl with h1 | h1
    · exact h l h1
    · have := h item (buscarLinea_some_id c id item hitem).2
      rw [h1]
      show 0 < item.cantidad + 1
      omega
  · intro l hl
    rcases List.mem_append.mp hl with h1 | h1
    · exact h l h1
    · have : l = { id := id, cantidad := 1 } := by simpa using h1
      rw [this]
      show (0 : Int) < 1
      omega

theorem carritoCambiar_positivas (c : List Linea) (id cambio : Int)
    (h : CantidadesPositivas c) : CantidadesPositivas (carritoCambiar c id cambio) := by
  unfold carritoCambiar
  split
  · rename_i item hitem
    split
    · rw [sumarAlPrimero_filter]
      intro l hl
      exact h l (List.mem_filter.mp hl).1
    · rename_i hpos
      intro l hl
      rcases mem_sumarAlPrimero id cambio c item hitem l hl with h1 | h1
      · exact h l h1
      · rw [h1]
        show 0 < item.cantidad + cambio
        omega
  · exact h

theorem carritoAgregar_unicos (c : List Linea) (id : Int)
    (h : IdsUnicos c) : IdsUnicos (carritoAgregar c id) := by
  unfold carritoAgregar IdsUnicos
  split
  · rw [sumarAlPrimero_ids]
    exact h
  · rename_i hnone
    have hno := (buscarLinea_none_iff c id).mp hnone
    rw [List.map_append, List.nodup_append]
    refine ⟨h, by simp, ?_⟩
    intro a ha hb
    simp only [List.map_cons, List.map_nil, List.mem_singleton] at hb
    obtain ⟨x, hx, hxa⟩ := List.mem_map.mp ha
    exact hno x hx (by rw [hxa, hb])

theorem carritoCambiar_unicos (c : List Linea) (id cambio : Int)
    (h : IdsUnicos c) : IdsUnicos (carritoCambiar c id cambio) := by
  unfold carritoCambiar IdsUnicos
  split
  · split
    · rw [sumarAlPrimero_filter]
      exact h.sublist ((List.filter_sublist c).map _)
    · rw [sumarAlPrimero_ids]
      exact h
  · exact h

theorem paso_carrito (s : Estado) (e : Evento) :
    (paso s e).estado.carrito =
      match e with
      | .agregar id => carritoAgregar s.carrito id
      | .cambiarCantidadCarrito id cambio => carritoCambiar s.carrito id cambio
      | .confirmarVaciar => []
      | .checkout => []
      | _ => s.carrito := by
  cases e with
  | agregar id => exact agregar_carrito s id
  | cambiarCantidadCarrito id cambio => exact cambiarCantidadCarrito_carrito s id cambio
  | abrirCarrito => simp [paso, abrirCarrito]
  | cerrarCarrito => rfl
  | abrirModal => rfl
  | cancelarVaciar => rfl
  | confirmarVaciar => exact confirmarVaciar_carrito s
  | checkout => exact checkout_carrito s
  | menuCargado items => rfl

theorem paso_positivas (s : Estado) (e : Evento) (h : CantidadesPositivas s.carrito) :
    CantidadesPositivas (paso s e).estado.carrito := by
  rw [paso_carrito]
  cases e with
  | agregar id => exact carritoAgregar_positivas _ _ h
  | cambiarCantidadCarrito id cambio => exact carritoCambiar_positivas _ _ _ h
  | confirmarVaciar => intro l hl; simp at hl
  | checkout => intro l hl; simp at hl
  | _ => exact h

theorem paso_unicos (s : Estado) (e : Evento) (h : IdsUnicos s.carrito) :
    IdsUnicos (paso s e).estado.carrito := by
  rw [paso_carrito]
  cases e with
  | agregar id => exact carritoAgregar_unicos _ _ h
  | cambiarCantidadCarrito id cambio => exact carritoCambiar_unicos _ _ _ h
  | confirmarVaciar => exact List.nodup_nil
  | checkout => exact List.nodup_nil
  | _ => exact h

theorem ejecutar_invariante (P : List Linea → Prop)
    (hpaso : ∀ (s : Estado) (e : Evento), P s.carrito → P (paso s e).estado.carrito)
    (evs : List Evento) : ∀ s : Estado, P s.carrito → P (ejecutar s evs).carrito := by
  induction evs with
  | nil => intro s h; exact h
  | cons e evs ih =>
    intro s h
    exact ih (paso s e).estado (hpaso s e h)

theorem existe_primera_linea (c : List Linea) (id : Int)
    (h : ∃ x ∈ c, x.id = id) :
    ∃ pre l post, c = pre ++ l :: post ∧ l.id = id ∧ ∀ x ∈ pre, x.id ≠ id := by
  induction c with
  | nil => simp at h
  | cons a c ih =>
    by_cases ha : a.id = id
    · exact ⟨[], a, c, rfl, ha, by simp⟩
    · have h2 : ∃ x ∈ c, x.id = id := by
        obtain ⟨x, hx, hxi⟩ := h
        rcases List.mem_cons.mp hx with hx | hx
        · exact absurd (hx ▸ hxi) ha
        · exact ⟨x, hx, hxi⟩
      obtain ⟨pre, l, post, hc, hl, hpre⟩ := ih h2
      refine ⟨a :: pre, l, post, by simp [hc], hl, ?_⟩
      intro x hx
      rcases List.mem_cons.mp hx with hx | hx
      · rw [hx]; exact ha
      · exact hpre x hx

theorem unicos_append_cons (pre post : List Linea) (l : Linea)
    (h : IdsUnicos (pre ++ l :: post)) :
    (∀ x ∈ pre, x.id ≠ l.id) ∧ (∀ x ∈ post, x.id ≠ l.id) := by
  unfold IdsUnicos at h
  rw [List.map_append, List.map_cons, List.nodup_append] at h
  obtain ⟨_, h2, h3⟩ := h
  constructor
  · intro x hx hxl
    exact h3 (List.mem_map.mpr ⟨x, hx, rfl⟩) (by simp [hxl])
  · intro x hx hxl
    have := (List.nodup_cons.mp h2).1
    exact this (List.mem_map.mpr ⟨x, hx, hxl⟩)

theorem carritoAgregar_filter (c : List Linea) (id : Int) :
    (carritoAgregar c id).filter (fun p => p.id != id) =
      c.filter (fun p => p.id != id) := by
  unfold carritoAgregar
  split
  · exact sumarAlPrimero_filter id 1 c
  · simp

theorem cambiarCantidadCarrito_vacio (s : Estado) (id cambio : Int)
    (h : s.carrito = []) :
    (cambiarCantidadCarrito s id cambio).estado.carrito = [] ∧
    (cambiarCantidadCarrito s id cambio).lanzado = false := by
  constructor
  · rw [cambiarCantidadCarrito_carrito, h]
    rfl
  · unfold cambiarCantidadCarrito
    simp only [h, buscarLinea, List.find?_nil]
    exact actualizar_vacio_lanzado s h

/-! ## Lemmas: the cart renderer -/

theorem buscarProducto_none_iff (menu : List Producto) (id : Int) :
    buscarProducto menu id = none ↔ ∀ p ∈ menu, p.id ≠ id := by
  simp [buscarProducto]

theorem buscarProducto_de_miembro (menu : List Producto) (id : Int)
    (h : ∃ p ∈ menu, p.id = id) : ∃ p, buscarProducto menu id = some p := by
  cases hb : buscarProducto menu id with
  | some p => exact ⟨p, rfl⟩
  | none =>
    obtain ⟨p, hp, hid⟩ := h
    exact absurd hid ((buscarProducto_none_iff menu id).mp hb p hp)

theorem buscarProducto_miembro (menu : List Producto) (id : Int) (p : Producto)
    (h : buscarProducto menu id = some p) : p ∈ menu ∧ p.id = id := by
  unfold buscarProducto at h
  exact ⟨List.mem_of_find?_eq_some h, by simpa using List.find?_some h⟩

theorem precioExacto_de_buscar (menu : List Producto) (id : Int) (p : Producto)
    (h : buscarProducto menu id = some p) : precioExacto menu id = valor p.precio := by
  induction menu with
  | nil => simp [buscarProducto] at h
  | cons a menu ih =>
    by_cases ha : a.id = id
    · have hp : a = p := by simpa [buscarProducto, ha] using h
      subst hp
      have hf : List.filter (fun p => decide (p.id = id)) (a :: menu) =
          a :: List.filter (fun p => decide (p.id = id)) menu := by
        rw [List.filter_cons]
        simp [ha]
      simp only [precioExacto, hf]
    · have h2 : buscarProducto menu id = some p := by
        simpa [buscarProducto, ha] using h
      have hf : List.filter (fun p => decide (p.id = id)) (a :: menu) =
          List.filter (fun p => decide (p.id = id)) menu := by
        rw [List.filter_cons]
        simp [ha]
      have := ih h2
      simp only [precioExacto, hf] at this ⊢
      exact this

theorem mapearCarrito_resuelto (menu : List Producto) (c : List Linea)
    (h : ∀ l ∈ c, ∃ p, buscarProducto menu l.id = some p) :
    ∀ acc : Numero, mapearCarrito menu c acc =
      some (c.map (filaEsperada menu),
        c.foldl (fun t l => sumar t (subtotalDe menu l)) acc) := by
  induction c with
  | nil => intro acc; simp [mapearCarrito]
  | cons a c ih =>
    intro acc
    obtain ⟨p, hp⟩ := h a (by simp)
    have ih2 := ih (fun l hl => h l (by simp [hl]))
    have hsub : subtotalDe menu a = multiplicar p.precio (deEntero a.cantidad) := by
      simp [subtotalDe, precioDe, hp]
    simp only [mapearCarrito, hp, ih2, List.map_cons, List.foldl_cons, hsub]
    simp only [filaEsperada, hp, hsub]

theorem mapearCarrito_none_iff (menu : List Producto) (c : List Linea) :
    ∀ acc : Numero, mapearCarrito menu c acc = none ↔
      ∃ l ∈ c, buscarProducto menu l.id = none := by
  induction c with
  | nil => intro acc; simp [mapearCarrito]
  | cons a c ih =>
    intro acc
    cases hp : buscarProducto menu a.id with
    | none => simp [mapearCarrito, hp]
    | some p =>
      cases hr : mapearCarrito menu c
          (sumar acc (multiplicar p.precio (deEntero a.cantidad))) with
      | none =>
        have := (ih _).mp hr
        simp [mapearCarrito, hp, hr, this]
      | some r =>
        have hno : ¬ ∃ l ∈ c, buscarProducto menu l.id = none := by
          intro hex
          rw [(ih (sumar acc (multiplicar p.precio (deEntero a.cantidad)))).mpr hex] at hr
          exact Option.noConfusion hr
        simp only [mapearCarrito, hp, hr, List.mem_cons]
        constructor
        · intro h; exact Option.noConfusion h
        · rintro ⟨l, hl | hl, hn⟩
          · rw [hl, hp] at hn; exact Option.noConfusion hn
          · exact absurd ⟨l, hl, hn⟩ hno

theorem renderizarCarrito_resuelto (s : Estado) (hne : s.carrito ≠ [])
    (h : ∀ l ∈ s.carrito, ∃ p, buscarProducto s.menuCompleto l.id = some p) :
    renderizarCarrito s =
      ⟨{ s with
          cartItems := .filas (s.carrito.map (filaEsperada s.menuCompleto))
          cartTotalPrice := toFixed2 (totalAcumuladoDe s.menuCompleto s.carrito) ++ "€" },
        false⟩ := by
  unfold renderizarCarrito
  have hlen : ¬ s.carrito.length = 0 := by
    intro h0
    exact hne (List.length_eq_zero.mp h0)
  simp only [hlen, if_false,
    mapearCarrito_resuelto s.menuCompleto s.carrito h (.finito 0 0), totalAcumuladoDe]

theorem renderizarCarrito_lanzado_iff (s : Estado) :
    (renderizarCarrito s).lanzado = true ↔
      ∃ l ∈ s.carrito, ∀ p ∈ s.menuCompleto, p.id ≠ l.id := by
  have hiff : (∃ l ∈ s.carrito, ∀ p ∈ s.menuCompleto, p.id ≠ l.id) ↔
      ∃ l ∈ s.carrito, buscarProducto s.menuCompleto l.id = none := by
    constructor
    · rintro ⟨l, hl, hp⟩
      exact ⟨l, hl, (buscarProducto_none_iff _ _).mpr hp⟩
    · rintro ⟨l, hl, hp⟩
      exact ⟨l, hl, (buscarProducto_none_iff _ _).mp hp⟩
  rw [hiff]
  by_cases hc : s.carrito = []
  · rw [renderizarCarrito_vacio s hc]
    simp [hc]
  · have hlen : ¬ s.carrito.length = 0 := by
      intro h0
      exact hc (List.length_eq_zero.mp h0)
    unfold renderizarCarrito
    simp only [hlen, if_false]
    cases hr : mapearCarrito s.menuCompleto s.carrito (.finito 0 0) with
    | none =>
      simp only [true_iff]
      exact (mapearCarrito_none_iff _ _ _).mp hr
    | some r =>
      simp only [Bool.false_eq_true, false_iff]
      intro hex
      rw [(mapearCarrito_none_iff _ _ _).mpr hex] at hr
      exact Option.noConfusion hr

theorem renderizarCarrito_lanzado_estado (s : Estado)
    (h : (renderizarCarrito s).lanzado = true) : (renderizarCarrito s).estado = s := by
  by_cases hc : s.carrito = []
  · rw [renderizarCarrito_vacio s hc] at h
    exact Bool.noConfusion h
  · have hlen : ¬ s.carrito.length = 0 := by
      intro h0
      exact hc (List.length_eq_zero.mp h0)
    unfold renderizarCarrito at h ⊢
    simp only [hlen, if_false] at h ⊢
    cases hr : mapearCarrito s.menuCompleto s.carrito (.finito 0 0) with
    | none => rfl
    | some r =>
      rw [hr] at h
      exact Bool.noConfusion h

theorem filaEsperada_subtotal (menu : List Producto) (l : Linea)
    (h : ∃ p, buscarProducto menu l.id = some p) :
    (filaEsperada menu l).subtotalTexto = toFixed2 (subtotalDe menu l) ++ "€" := by
  obtain ⟨p, hp⟩ := h
  simp only [filaEsperada, hp]

theorem filaEsperada_cantidad (menu : List Producto) (l : Linea) :
    (filaEsperada menu l).cantidad = l.cantidad ∧ (filaEsperada menu l).idMenos = l.id ∧
      (filaEsperada menu l).idMas = l.id := by
  unfold filaEsperada
  split <;> exact ⟨rfl, rfl, rfl⟩

/-! ## Lemmas: arithmetic of the type Number -/

theorem bitsAux_spec : ∀ f n : Nat, n ≤ f →
    n < 2 ^ bitsAux f n ∧ (n ≠ 0 → 2 ^ (bitsAux f n - 1) ≤ n) := by
  intro f
  induction f with
  | zero =>
    intro n hn
    have : n = 0 := by omega
    subst this
    simp [bitsAux]
  | succ f ih =>
    intro n hn
    by_cases h0 : n = 0
    · subst h0
      simp [bitsAux]
    · have hle : n / 2 ≤ f := by omega
      obtain ⟨h1, h2⟩ := ih (n / 2) hle
      simp only [bitsAux, h0, if_false, Nat.add_sub_cancel]
      constructor
      · rw [pow_succ]
        omega
      · intro _
        by_cases h3 : n / 2 = 0
        · have hb0 : bitsAux f 0 = 0 := by cases f <;> simp [bitsAux]
          rw [h3, hb0]
          simp only [pow_zero]
          omega
        · have h4 := h2 h3
          have h5 : 0 < bitsAux f (n / 2) := by
            rcases Nat.eq_zero_or_pos (bitsAux f (n / 2)) with h6 | h6
            · rw [h6] at h1
              omega
            · exact h6
          have h7 : bitsAux f (n / 2) = (bitsAux f (n / 2) - 1) + 1 := by omega
          rw [h7, pow_succ]
          omega

theorem lt_two_pow_bits (n : Nat) : n < 2 ^ bits n :=
  (bitsAux_spec n n (le_refl n)).1

theorem two_pow_bits_le (n : Nat) (h : n ≠ 0) : 2 ^ (bits n - 1) ≤ n :=
  (bitsAux_spec n n (le_refl n)).2 h

theorem bits_pos (n : Nat) (h : n ≠ 0) : 0 < bits n := by
  rcases Nat.eq_zero_or_pos (bits n) with h1 | h1
  · have := lt_two_pow_bits n
    rw [h1] at this
    omega
  · exact h1

theorem bits_le_of_lt (n k : Nat) (h : n < 2 ^ k) : bits n ≤ k := by
  by_cases h0 : n = 0
  · subst h0
    simp [bits, bitsAux]
  · by_contra hc
    have h1 := two_pow_bits_le n h0
    have h2 : 2 ^ k ≤ 2 ^ (bits n - 1) := Nat.pow_le_pow_right (by norm_num) (by omega)
    omega

theorem cota_exponente (a : Nat) (ha : a ≠ 0) (E : Int)
    (h : (a : ℚ) * (2 : ℚ) ^ E < (2 : ℚ) ^ (1024 : ℤ)) : E + (bits a : Nat) ≤ 1024 := by
  have h1 := two_pow_bits_le a ha
  have h2 : ((2 : ℚ) ^ (bits a - 1) : ℚ) ≤ (a : ℚ) := by exact_mod_cast h1
  have h3 : (2 : ℚ) ^ (((bits a - 1 : Nat) : ℤ) + E) < (2 : ℚ) ^ (1024 : ℤ) := by
    rw [zpow_add₀ (by norm_num : (2 : ℚ) ≠ 0), zpow_natCast]
    exact lt_of_le_of_lt (mul_le_mul_of_nonneg_right h2 (by positivity)) h
  have h4 := (zpow_lt_zpow_iff_right₀ (by norm_num : (1 : ℚ) < 2)).mp h3
  have h5 := bits_pos a ha
  omega

theorem dos_zpow_toNat (x y : Int) (h : y ≤ x) :
    ((2 : ℚ) ^ (x - y).toNat) * (2 : ℚ) ^ y = (2 : ℚ) ^ x := by
  rw [← zpow_natCast, Int.toNat_of_nonneg (by omega), ← zpow_add₀ (by norm_num)]
  congr 1
  omega

theorem redondear_exacto (M E : Int) (h : EsDoble ((M : ℚ) * (2 : ℚ) ^ E)) :
    ∃ m e : Int, redondear M E = .finito m e ∧ (m : ℚ) * (2 : ℚ) ^ e = (M : ℚ) * (2 : ℚ) ^ E := by
  by_cases hM : M = 0
  · exact ⟨0, 0, by simp [redondear, hM], by simp [hM]⟩
  obtain ⟨m, e, hm, he1, he2, hx⟩ := h
  have ha : M.natAbs ≠ 0 := by simpa using hM
  have h2pos : ∀ z : Int, (0 : ℚ) < (2 : ℚ) ^ z := fun z => by positivity
  -- absolute values
  have habs : (M.natAbs : ℚ) * (2 : ℚ) ^ E = (m.natAbs : ℚ) * (2 : ℚ) ^ e := by
    have := congrArg abs hx
    rw [abs_mul, abs_mul, abs_of_pos (h2pos E), abs_of_pos (h2pos e)] at this
    rw [Nat.cast_natAbs, Nat.cast_natAbs]
    exact_mod_cast this
  have hlt : (M.natAbs : ℚ) * (2 : ℚ) ^ E < (2 : ℚ) ^ (1024 : ℤ) := by
    rw [habs]
    have h1 : (m.natAbs : ℚ) < (2 : ℚ) ^ (53 : ℤ) := by
      have h0 : (m.natAbs : ℚ) < (2 : ℚ) ^ (53 : ℕ) := by exact_mod_cast hm
      rw [← zpow_natCast] at h0
      exact h0
    have h3 : (2 : ℚ) ^ e ≤ (2 : ℚ) ^ (971 : ℤ) :=
      (zpow_le_zpow_iff_right₀ (by norm_num : (1 : ℚ) < 2)).mpr he2
    calc (m.natAbs : ℚ) * (2 : ℚ) ^ e
        ≤ (m.natAbs : ℚ) * (2 : ℚ) ^ (971 : ℤ) :=
          mul_le_mul_of_nonneg_left h3 (by positivity)
      _ < (2 : ℚ) ^ (53 : ℤ) * (2 : ℚ) ^ (971 : ℤ) :=
          mul_lt_mul_of_pos_right h1 (by positivity)
      _ = (2 : ℚ) ^ (1024 : ℤ) := by
          rw [← zpow_add₀ (by norm_num)]
          norm_num
  have hcota := cota_exponente M.natAbs ha E hlt
  unfold redondear
  simp only [hM, if_false]
  split
  · -- no shift
    rename_i hq
    rw [if_neg (by omega)]
    exact ⟨M, E, rfl, rfl⟩
  · -- shift
    rename_i hq
    have hqE : E < max (E + ((bits M.natAbs : Nat) : Int) - 53) (-1074) := by omega
    -- e ≥ E
    have heE : E ≤ e := by
      by_contra hc
      have hc' : e < E := by omega
      have h1 : (M.natAbs : ℚ) * (2 : ℚ) ^ (E - e).toNat = (m.natAbs : ℚ) := by
        have := dos_zpow_toNat E e (by omega)
        rw [← this, ← mul_assoc] at habs
        exact mul_right_cancel₀ (ne_of_gt (h2pos e)) habs
      have h2 : M.natAbs * 2 ^ (E - e).toNat = m.natAbs := by exact_mod_cast h1
      have h3 : M.natAbs ≤ m.natAbs := by
        rw [← h2]
        exact Nat.le_mul_of_pos_right _ (by positivity)
      have h4 := bits_le_of_lt M.natAbs 53 (by omega)
      omega
    have h1 : (M.natAbs : ℚ) = (m.natAbs : ℚ) * (2 : ℚ) ^ (e - E).toNat := by
      have := dos_zpow_toNat e E heE
      rw [← this, ← mul_assoc] at habs
      exact mul_right_cancel₀ (ne_of_gt (h2pos E)) habs
    have h2 : M.natAbs = m.natAbs * 2 ^ (e - E).toNat := by exact_mod_cast h1
    have hb : bits M.natAbs ≤ 53 + (e - E).toNat := by
      apply bits_le_of_lt
      rw [h2, pow_add]
      exact Nat.mul_lt_mul_of_pos_right hm (by positivity)
    have hsh : (max (E + ((bits M.natAbs : Nat) : Int) - 53) (-1074) - E).toNat ≤ (e - E).toNat := by
      omega
    generalize hshdef : (max (E + ((bits M.natAbs : Nat) : Int) - 53) (-1074) - E).toNat = sh at *
    have hshpos : 0 < sh := by omega
    have hdvd : 2 ^ sh ∣ M.natAbs := by
      rw [h2]
      exact Dvd.dvd.mul_left (pow_dvd_pow 2 hsh) _
    have hr : M.natAbs % 2 ^ sh = 0 := Nat.mod_eq_zero_of_dvd hdvd
    have hhalf : 0 < 2 ^ (sh - 1) := by positivity
    have hn : (if 2 ^ (sh - 1) < M.natAbs % 2 ^ sh ∨
        (M.natAbs % 2 ^ sh = 2 ^ (sh - 1) ∧ M.natAbs / 2 ^ sh % 2 = 1)
        then M.natAbs / 2 ^ sh + 1 else M.natAbs / 2 ^ sh) = M.natAbs / 2 ^ sh := by
      rw [hr]
      rw [if_neg]
      intro hor
      rcases hor with hor | hor
      · omega
      · omega
    simp only [hn]
    have ht : M.natAbs / 2 ^ sh * 2 ^ sh = M.natAbs := Nat.div_mul_cancel hdvd
    have htq : ((M.natAbs / 2 ^ sh : Nat) : ℚ) * (2 : ℚ) ^ sh = (M.natAbs : ℚ) := by
      exact_mod_cast ht
    have ht0 : M.natAbs / 2 ^ sh ≠ 0 := by
      intro h0
      rw [h0] at ht
      omega
    have hqeq : max (E + ((bits M.natAbs : Nat) : Int) - 53) (-1074) = E + sh := by omega
    have hval : ((M.natAbs / 2 ^ sh : Nat) : ℚ) * (2 : ℚ) ^ (E + (sh : Int)) =
        (M.natAbs : ℚ) * (2 : ℚ) ^ E := by
      rw [zpow_add₀ (by norm_num), zpow_natCast, ← htq]
      ring
    have hcota2 := cota_exponente (M.natAbs / 2 ^ sh) ht0 (E + sh) (by rw [hval]; exact hlt)
    rw [hqeq, if_neg (by omega)]
    refine ⟨_, _, rfl, ?_⟩
    by_cases hneg : M < 0
    · simp only [hneg, if_true]
      have hMa : (M : ℚ) = -(M.natAbs : ℚ) := by
        rw [Nat.cast_natAbs, abs_of_neg (by exact_mod_cast hneg)]
        simp
      rw [Int.cast_neg, Int.cast_natCast, neg_mul, hval, hMa, neg_mul]
    · simp only [hneg, if_false]
      have hMa : (M : ℚ) = (M.natAbs : ℚ) := by
        rw [Nat.cast_natAbs, abs_of_nonneg (by exact_mod_cast (not_lt.mp hneg))]
      rw [Int.cast_natCast, hval, hMa]

theorem multiplicar_exacto (m1 e1 m2 e2 : Int)
    (h : EsDoble (((m1 : ℚ) * (2 : ℚ) ^ e1) * ((m2 : ℚ) * (2 : ℚ) ^ e2))) :
    ∃ m e : Int, multiplicar (.finito m1 e1) (.finito m2 e2) = .finito m e ∧
      (m : ℚ) * (2 : ℚ) ^ e = ((m1 : ℚ) * (2 : ℚ) ^ e1) * ((m2 : ℚ) * (2 : ℚ) ^ e2) := by
  have heq : ((m1 * m2 : Int) : ℚ) * (2 : ℚ) ^ (e1 + e2) =
      ((m1 : ℚ) * (2 : ℚ) ^ e1) * ((m2 : ℚ) * (2 : ℚ) ^ e2) := by
    rw [zpow_add₀ (by norm_num), Int.cast_mul]
    ring
  obtain ⟨m, e, h1, h2⟩ := redondear_exacto (m1 * m2) (e1 + e2) (by rw [heq]; exact h)
  exact ⟨m, e, h1, by rw [h2, heq]⟩

theorem sumar_exacto (m1 e1 m2 e2 : Int)
    (h : EsDoble ((m1 : ℚ) * (2 : ℚ) ^ e1 + (m2 : ℚ) * (2 : ℚ) ^ e2)) :
    ∃ m e : Int, sumar (.finito m1 e1) (.finito m2 e2) = .finito m e ∧
      (m : ℚ) * (2 : ℚ) ^ e = (m1 : ℚ) * (2 : ℚ) ^ e1 + (m2 : ℚ) * (2 : ℚ) ^ e2 := by
  have heq : ((m1 * 2 ^ (e1 - min e1 e2).toNat + m2 * 2 ^ (e2 - min e1 e2).toNat : Int) : ℚ)
      * (2 : ℚ) ^ (min e1 e2) =
      (m1 : ℚ) * (2 : ℚ) ^ e1 + (m2 : ℚ) * (2 : ℚ) ^ e2 := by
    push_cast
    rw [add_mul, mul_assoc, mul_assoc, dos_zpow_toNat e1 (min e1 e2) (min_le_left _ _),
      dos_zpow_toNat e2 (min e1 e2) (min_le_right _ _)]
  obtain ⟨m, e, h1, h2⟩ := redondear_exacto _ (min e1 e2) (by rw [heq]; exact h)
  exact ⟨m, e, h1, by rw [h2, heq]⟩

theorem deEntero_exacto (z : Int) (h : EsDoble (z : ℚ)) :
    ∃ m e : Int, deEntero z = .finito m e ∧ (m : ℚ) * (2 : ℚ) ^ e = (z : ℚ) := by
  obtain ⟨m, e, h1, h2⟩ := redondear_exacto z 0 (by simpa using h)
  exact ⟨m, e, h1, by simpa using h2⟩

theorem digitChar_eq (k : Nat) (h : k < 10) : Nat.digitChar k = Char.ofNat (48 + k) := by
  interval_cases k <;> rfl

theorem dos_zpow_cociente (e : Int) :
    (2 : ℚ) ^ e = ((2 ^ e.toNat : Nat) : ℚ) / ((2 ^ (-e).toNat : Nat) : ℚ) := by
  rcases le_or_lt 0 e with he | he
  · have h1 : (-e).toNat = 0 := by omega
    rw [h1]
    push_cast
    rw [div_one, ← zpow_natCast, Int.toNat_of_nonneg he]
  · have h1 : e.toNat = 0 := by omega
    rw [h1]
    push_cast
    rw [one_div, ← zpow_natCast, Int.toNat_of_nonneg (by omega), zpow_neg, inv_inv]

theorem toFixed2_eq_dosDecimales (m e : Int)
    (h : |(m : ℚ) * (2 : ℚ) ^ e| < 10 ^ 21) :
    toFixed2 (.finito m e) = dosDecimales ((m : ℚ) * (2 : ℚ) ^ e) := by
  have h2pos : (0 : ℚ) < (2 : ℚ) ^ e := by positivity
  have hdpos : (0 : ℚ) < ((2 ^ (-e).toNat : Nat) : ℚ) := by positivity
  have hsign : ((m : ℚ) * (2 : ℚ) ^ e < 0) ↔ m < 0 := by
    rw [mul_neg_iff]
    constructor
    · rintro (⟨_, h2⟩ | ⟨h1, _⟩)
      · exact absurd h2 (not_lt.mpr h2pos.le)
      · exact_mod_cast h1
    · intro hm
      exact Or.inr ⟨by exact_mod_cast hm, h2pos⟩
  have habs : |(m : ℚ) * (2 : ℚ) ^ e| =
      ((m.natAbs * 2 ^ e.toNat : Nat) : ℚ) / ((2 ^ (-e).toNat : Nat) : ℚ) := by
    rw [abs_mul, abs_of_pos h2pos, dos_zpow_cociente e, Nat.cast_mul, Nat.cast_natAbs,
      mul_div_assoc]
    push_cast
    rfl
  generalize hu : m.natAbs * 2 ^ e.toNat = u at habs
  generalize hd : 2 ^ (-e).toNat = d at habs hdpos
  have hcota : ¬ (10 ^ 21 * d ≤ u) := by
    intro hc
    have : ((10 ^ 21 * d : Nat) : ℚ) ≤ (u : ℚ) := by exact_mod_cast hc
    rw [habs, div_lt_iff₀ hdpos] at h
    push_cast at this
    linarith
  have hround : (round (|(m : ℚ) * (2 : ℚ) ^ e| * 100)).toNat = (2 * 100 * u + d) / (2 * d) := by
    rw [round_eq, habs, Int.floor_toNat]
    have : (u : ℚ) / (d : ℚ) * 100 + 1 / 2 = ((2 * 100 * u + d : Nat) : ℚ) / ((2 * d : Nat) : ℚ) := by
      push_cast
      field_simp
      ring
    rw [this, Nat.floor_div_eq_div]
  unfold toFixed2 dosDecimales
  simp only [hu, hd, hcota, if_false, hsign, hround, dosDigitos]
  rw [digitChar_eq _ (Nat.mod_lt _ (by norm_num)), digitChar_eq _ (Nat.mod_lt _ (by norm_num))]


theorem agregar_menuCompleto (s : Estado) (id : Int) :
    (agregar s id).estado.menuCompleto = s.menuCompleto := by
  unfold agregar
  split <;> simp

theorem agregar_cartCount (s : Estado) (id : Int) :
    (agregar s id).estado.cartCount = totalQty (agregar s id).estado.carrito := by
  unfold agregar
  split <;> simp

theorem cambiarCantidadCarrito_cartCount (s : Estado) (id cambio : Int) :
    (cambiarCantidadCarrito s id cambio).estado.cartCount =
      totalQty (cambiarCantidadCarrito s id cambio).estado.carrito := by
  unfold cambiarCantidadCarrito
  split
  · dsimp only
    split <;> simp
  · simp


/-! ## Lemmas: the total when no operation rounds -/

theorem subtotalDe_exacto (menu : List Producto) (l : Linea) (p : Producto)
    (hp : buscarProducto menu l.id = some p) (hfin : ∃ m e, p.precio = .finito m e)
    (hc : EsDoble (l.cantidad : ℚ)) (hs : EsDoble (subtotalExacto menu l)) :
    ∃ m e : Int, subtotalDe menu l = .finito m e ∧
      (m : ℚ) * (2 : ℚ) ^ e = subtotalExacto menu l := by
  obtain ⟨mp, ep, hpe⟩ := hfin
  obtain ⟨mq, eq, hq1, hq2⟩ := deEntero_exacto l.cantidad hc
  have hpx : precioExacto menu l.id = (mp : ℚ) * (2 : ℚ) ^ ep := by
    rw [precioExacto_de_buscar menu l.id p hp, hpe]
    rfl
  have hsx : subtotalExacto menu l =
      ((mp : ℚ) * (2 : ℚ) ^ ep) * ((mq : ℚ) * (2 : ℚ) ^ eq) := by
    rw [subtotalExacto, hpx, hq2]
  obtain ⟨m, e, h1, h2⟩ := multiplicar_exacto mp ep mq eq (by rw [← hsx]; exact hs)
  refine ⟨m, e, ?_, by rw [h2, hsx]⟩
  simp only [subtotalDe, precioDe, hp, hpe, hq1, h1]

theorem acumular_exacto (menu : List Producto)
    (hfin : ∀ p ∈ menu, ∃ m e, p.precio = .finito m e) :
    ∀ (c : List Linea) (acc : Numero) (A : ℚ),
      (∃ m e : Int, acc = .finito m e ∧ (m : ℚ) * (2 : ℚ) ^ e = A) →
      (∀ l ∈ c, ∃ p ∈ menu, p.id = l.id) →
      (∀ l ∈ c, EsDoble (l.cantidad : ℚ) ∧ EsDoble (subtotalExacto menu l)) →
      (∀ k : Nat, EsDoble (A + totalExacto menu (c.take k))) →
      ∃ m e : Int, c.foldl (fun t l => sumar t (subtotalDe menu l)) acc = .finito m e ∧
        (m : ℚ) * (2 : ℚ) ^ e = A + totalExacto menu c := by
  intro c
  induction c with
  | nil =>
    intro acc A hacc _ _ _
    obtain ⟨m, e, h1, h2⟩ := hacc
    exact ⟨m, e, h1, by simp [totalExacto, h2]⟩
  | cons l c ih =>
    intro acc A hacc hres hlin hpar
    obtain ⟨ma, ea, ha1, ha2⟩ := hacc
    obtain ⟨p, hp⟩ := buscarProducto_de_miembro menu l.id (hres l (by simp))
    have hpm := (buscarProducto_miembro menu l.id p hp).1
    obtain ⟨hcant, hsub⟩ := hlin l (by simp)
    obtain ⟨ms, es, hs1, hs2⟩ := subtotalDe_exacto menu l p hp (hfin p hpm) hcant hsub
    have h1 : EsDoble ((ma : ℚ) * (2 : ℚ) ^ ea + (ms : ℚ) * (2 : ℚ) ^ es) := by
      have := hpar 1
      simpa [totalExacto, ha2, hs2] using this
    obtain ⟨m2, e2, hsum1, hsum2⟩ := sumar_exacto ma ea ms es h1
    have hrec := ih (sumar acc (subtotalDe menu l)) (A + subtotalExacto menu l)
      ⟨m2, e2, by rw [ha1, hs1, hsum1], by rw [hsum2, ha2, hs2]⟩
      (fun x hx => hres x (by simp [hx]))
      (fun x hx => hlin x (by simp [hx]))
      (fun k => by
        have := hpar (k + 1)
        simpa [totalExacto, add_assoc] using this)
    obtain ⟨m, e, hm1, hm2⟩ := hrec
    exact ⟨m, e, by simpa [List.foldl_cons] using hm1, by
      rw [hm2]
      simp [totalExacto, add_assoc]⟩

theorem totalAcumuladoDe_exacto (menu : List Producto) (c : List Linea)
    (hres : ∀ l ∈ c, ∃ p ∈ menu, p.id = l.id)
    (hfin : ∀ p ∈ menu, ∃ m e, p.precio = .finito m e)
    (hex : SinRedondeo menu c) :
    ∃ m e : Int, totalAcumuladoDe menu c = .finito m e ∧
      (m : ℚ) * (2 : ℚ) ^ e = totalExacto menu c := by
  obtain ⟨m, e, h1, h2⟩ := acumular_exacto menu hfin c (.finito 0 0) 0
    ⟨0, 0, rfl, by simp⟩ hres hex.1 (fun k => by simpa using hex.2 k)
  exact ⟨m, e, h1, by simpa using h2⟩

theorem dosDecimales_cero : dosDecimales 0 = "0.00" := by
  have h := toFixed2_eq_dosDecimales 0 0 (by norm_num)
  have hv : ((0 : Int) : ℚ) * (2 : ℚ) ^ (0 : Int) = 0 := by norm_num
  rw [hv] at h
  rw [← h]
  decide

theorem dosDecimales_diecinueve : dosDecimales 19 = "19.00" := by
  have h := toFixed2_eq_dosDecimales 19 0 (by norm_num)
  have hv : ((19 : Int) : ℚ) * (2 : ℚ) ^ (0 : Int) = 19 := by norm_num
  rw [hv] at h
  rw [← h]
  decide

theorem renderizarCarrito_total_exacto (s : Estado)
    (hres : ∀ l ∈ s.carrito, ∃ p ∈ s.menuCompleto, p.id = l.id)
    (hfin : ∀ p ∈ s.menuCompleto, ∃ m e, p.precio = .finito m e)
    (hex : SinRedondeo s.menuCompleto s.carrito)
    (hcota : |totalExacto s.menuCompleto s.carrito| < 10 ^ 21) :
    (renderizarCarrito s).estado.cartTotalPrice =
      dosDecimales (totalExacto s.menuCompleto s.carrito) ++ "€" := by
  by_cases hc : s.carrito = []
  · rw [renderizarCarrito_vacio s hc, hc]
    show "0.00€" = dosDecimales (totalExacto s.menuCompleto []) ++ "€"
    have : totalExacto s.menuCompleto [] = 0 := rfl
    rw [this, dosDecimales_cero]
    decide
  · rw [renderizarCarrito_resuelto s hc
      (fun l hl => buscarProducto_de_miembro _ _ (hres l hl))]
    obtain ⟨m, e, h1, h2⟩ := totalAcumuladoDe_exacto _ _ hres hfin hex
    show toFixed2 (totalAcumuladoDe s.menuCompleto s.carrito) ++ "€" = _
    rw [h1, toFixed2_eq_dosDecimales m e (by rw [h2]; exact hcota), h2]

theorem esDoble_entero (z : Int) (h : z.natAbs < 2 ^ 53) : EsDoble (z : ℚ) :=
  ⟨z, 0, h, by decide, by decide, by simp⟩

theorem sinRedondeo_dos_unidades (p : Producto) (hid : p.id = 1)
    (hp : ∃ m e : Int, p.precio = .finito m e ∧ (m : ℚ) * (2 : ℚ) ^ e = 19 / 2) :
    SinRedondeo [p] [⟨1, 2⟩] ∧ totalExacto [p] [⟨1, 2⟩] = 19 := by
  obtain ⟨m, e, hpe, hv⟩ := hp
  have hpx : precioExacto [p] 1 = 19 / 2 := by
    simp [precioExacto, List.filter_cons, hid, hpe, valor, hv]
  have hsub : subtotalExacto [p] ⟨1, 2⟩ = 19 := by
    simp only [subtotalExacto, hpx]
    norm_num
  have htot : totalExacto [p] [⟨1, 2⟩] = 19 := by
    simp [totalExacto, hsub]
  have h19 : EsDoble (19 : ℚ) := by
    have := esDoble_entero 19 (by decide)
    simpa using this
  have h2 : EsDoble (((2 : Int) : ℚ)) := esDoble_entero 2 (by decide)
  have h0 : EsDoble (0 : ℚ) := by
    have := esDoble_entero 0 (by decide)
    simpa using this
  refine ⟨⟨?_, ?_⟩, htot⟩
  · intro l hl
    have hl2 : l = ⟨1, 2⟩ := by simpa using hl
    rw [hl2, hsub]
    exact ⟨h2, h19⟩
  · intro k
    cases k with
    | zero => simpa [totalExacto] using h0
    | succ k =>
      have : List.take (k + 1) [(⟨1, 2⟩ : Linea)] = [⟨1, 2⟩] := by simp
      rw [this, htot]
      exact h19

theorem escenario_dos_unidades (t : Estado) (p : Producto)
    (hm : t.menuCompleto = [p]) (hid : p.id = 1)
    (hp : ∃ m e : Int, p.precio = .finito m e ∧ (m : ℚ) * (2 : ℚ) ^ e = 19 / 2)
    (hc : t.carrito = []) :
    (agregar (agregar t 1).estado 1).estado.cartCount = 2 ∧
    (renderizarCarrito (agregar (agregar t 1).estado 1).estado).estado.cartTotalPrice =
      "19.00€" := by
  have hcar : (agregar (agregar t 1).estado 1).estado.carrito = [⟨1, 2⟩] := by
    rw [agregar_carrito, agregar_carrito, hc]
    decide
  have hmenu : (agregar (agregar t 1).estado 1).estado.menuCompleto = [p] := by
    rw [agregar_menuCompleto, agregar_menuCompleto, hm]
  obtain ⟨hsr, htot⟩ := sinRedondeo_dos_unidades p hid hp
  constructor
  · rw [agregar_cartCount, hcar]
    decide
  · rw [renderizarCarrito_total_exacto]
    · rw [hcar, hmenu, htot, dosDecimales_diecinueve]
      decide
    · rw [hcar, hmenu]
      intro l hl
      have hl2 : l = ⟨1, 2⟩ := by simpa using hl
      exact ⟨p, by simp, by rw [hl2, hid]⟩
    · rw [hmenu]
      intro q hq
      have hq2 : q = p := by simpa using hq
      obtain ⟨m, e, hpe, _⟩ := hp
      exact ⟨m, e, by rw [hq2, hpe]⟩
    · rw [hcar, hmenu]
      exact hsr
    · rw [hcar, hmenu, htot]
      norm_num

theorem dosDecimales_redondeo :
    dosDecimales (10 ^ 16 + 1 / 2) = "10000000000000000.50" := by
  have h := toFixed2_eq_dosDecimales (2 * 10 ^ 16 + 1) (-1) (by norm_num [abs_of_pos])
  have hv : ((2 * 10 ^ 16 + 1 : Int) : ℚ) * (2 : ℚ) ^ (-1 : Int) = 10 ^ 16 + 1 / 2 := by
    norm_num
  rw [hv] at h
  rw [← h]
  decide

theorem dosDecimales_exponencial :
    dosDecimales (10 ^ 21) = "1000000000000000000000.00" := by
  have h1 : |(10 : ℚ) ^ 21| * 100 = ((10 ^ 23 : Nat) : ℚ) := by
    rw [abs_of_pos (by positivity)]
    norm_num
  have h2 : ¬ ((10 : ℚ) ^ 21 < 0) := by norm_num
  unfold dosDecimales
  rw [h1, round_natCast]
  simp only [h2, if_false, Int.toNat_ofNat]
  decide

theorem totalExacto_redondeo :
    totalExacto estadoRedondeo.menuCompleto estadoRedondeo.carrito = 10 ^ 16 + 1 / 2 := by
  simp [totalExacto, subtotalExacto, precioExacto, estadoRedondeo, estadoInicial, plato,
    valor, List.filter_cons]
  norm_num

theorem totalExacto_exponencial :
    totalExacto estadoExponencial.menuCompleto estadoExponencial.carrito = 10 ^ 21 := by
  simp [totalExacto, subtotalExacto, precioExacto, estadoExponencial, estadoInicial, plato,
    valor, List.filter_cons]
  norm_num

theorem sinRedondeo_exponencial :
    SinRedondeo estadoExponencial.menuCompleto estadoExponencial.carrito := by
  have hsub : subtotalExacto estadoExponencial.menuCompleto ⟨1, 1⟩ = 10 ^ 21 := by
    simp [subtotalExacto, precioExacto, estadoExponencial, estadoInicial, plato, valor,
      List.filter_cons]
    norm_num
  have hbig : EsDoble ((10 : ℚ) ^ 21) :=
    ⟨5 ^ 21, 21, by decide, by decide, by decide, by norm_num⟩
  have h1 : EsDoble (((1 : Int) : ℚ)) := esDoble_entero 1 (by decide)
  have h0 : EsDoble (0 : ℚ) := by
    have := esDoble_entero 0 (by decide)
    simpa using this
  have hcar : estadoExponencial.carrito = [⟨1, 1⟩] := rfl
  refine ⟨?_, ?_⟩
  · intro l hl
    have hl2 : l = ⟨1, 1⟩ := by simpa [hcar] using hl
    rw [hl2, hsub]
    exact ⟨h1, hbig⟩
  · intro k
    cases k with
    | zero => simpa [totalExacto] using h0
    | succ k =>
      have : List.take (k + 1) estadoExponencial.carrito = estadoExponencial.carrito := by
        simp [hcar]
      rw [this, totalExacto_exponencial]
      exact hbig

/-! ## Lemmas: clear and checkout -/

theorem confirmarVaciar_eq (s : Estado) :
    confirmarVaciar s =
      ⟨{ (actualizar { s with carrito := [] }).estado with modalDisplay := "none" }, false⟩ := by
  unfold confirmarVaciar
  simp only [actualizar_vacio_lanzado { s with carrito := [] } rfl, Bool.false_eq_true,
    if_false]

theorem checkout_vacio (s : Estado) (h : s.carrito = []) :
    checkout s = ⟨{ s with alertas := s.alertas ++ [avisoVacio] }, false⟩ := by
  unfold checkout
  simp [h]

theorem checkout_con_lineas (s : Estado) (h : s.carrito ≠ []) :
    checkout s =
      ⟨cerrarCarrito
        (actualizar { s with alertas := s.alertas ++ [avisoExito], carrito := [] }).estado,
        false⟩ := by
  have hlen : ¬ s.carrito.length = 0 := by
    intro h0
    exact h (List.length_eq_zero.mp h0)
  unfold checkout
  simp only [hlen, if_false,
    actualizar_vacio_lanzado
      { s with alertas := s.alertas ++ [avisoExito], carrito := [] } rfl,
    Bool.false_eq_true]

set_option maxRecDepth 100000

/-! ## Claims -/

/-- C1. Starting from any state whose cart is empty, after every finite
sequence of events (calls of `agregar` and of `cambiarCantidadCarrito` with any
identifiers and any integer changes, and every other handler of the page),
every line of the cart has a quantity strictly greater than zero. -/
theorem c1_cantidad_positiva (s : Estado) (evs : List Evento) (h : s.carrito = []) :
    ∀ l ∈ (ejecutar s evs).carrito, 0 < l.cantidad :=
  ejecutar_invariante CantidadesPositivas paso_positivas evs s
    (by intro l hl; simp [h] at hl)

/-- Witness of C1: three events on the initial state. -/
theorem c1_cantidad_positiva_witness :
    (estadoInicial []).carrito = [] ∧
    (⟨3, 1⟩ : Linea) ∈ (ejecutar (estadoInicial [])
        [.agregar 7, .cambiarCantidadCarrito 7 (-5), .agregar 3]).carrito ∧
    0 < (⟨3, 1⟩ : Linea).cantidad :=
  ⟨rfl, by decide,
    c1_cantidad_positiva (estadoInicial [])
      [.agregar 7, .cambiarCantidadCarrito 7 (-5), .agregar 3] rfl ⟨3, 1⟩ (by decide)⟩

/-- C2. Starting from any state whose cart is empty, after every finite
sequence of events (`agregar`, `cambiarCantidadCarrito`, the confirmed clear,
the checkout and every other handler of the page), no two lines of the cart
have the same identifier. -/
theorem c2_ids_unicos (s : Estado) (evs : List Evento) (h : s.carrito = []) :
    ((ejecutar s evs).carrito.map (fun l => l.id)).Nodup :=
  ejecutar_invariante IdsUnicos paso_unicos evs s
    (by simp [IdsUnicos, h])

/-- Witness of C2: five events on the initial state. -/
theorem c2_ids_unicos_witness :
    (estadoInicial []).carrito = [] ∧
    ((ejecutar (estadoInicial [])
        [.agregar 7, .agregar 7, .checkout, .agregar 3, .confirmarVaciar]).carrito.map
      (fun l => l.id)).Nodup :=
  ⟨rfl, c2_ids_unicos (estadoInicial []) _ rfl⟩

/-- C3. Postcondition of `agregar(id)`, for every state and identifier. When
the cart has a line for `id`, the cart splits at the first such line and the
result is the same cart with the quantity of that line increased by one, every
other line and the order unchanged. When the cart has no line for `id`, the
result is the old cart followed by the new line with quantity one. The result
does not depend on the catalog. -/
theorem c3_agregar_postcondicion (s : Estado) (id : Int) :
    ((∃ x ∈ s.carrito, x.id = id) →
      ∃ pre l post, s.carrito = pre ++ l :: post ∧ l.id = id ∧
        (∀ x ∈ pre, x.id ≠ id) ∧
        (agregar s id).estado.carrito =
          pre ++ { id := l.id, cantidad := l.cantidad + 1 } :: post) ∧
    (∀ pre l post, s.carrito = pre ++ l :: post → l.id = id →
      (∀ x ∈ pre, x.id ≠ id) →
        (agregar s id).estado.carrito =
          pre ++ { id := l.id, cantidad := l.cantidad + 1 } :: post) ∧
    ((∀ x ∈ s.carrito, x.id ≠ id) →
      (agregar s id).estado.carrito = s.carrito ++ [{ id := id, cantidad := 1 }]) ∧
    (∀ menu : List Producto,
      (agregar { s with menuCompleto := menu } id).estado.carrito =
        (agregar s id).estado.carrito) := by
  have hsplit : ∀ pre l post, s.carrito = pre ++ l :: post → l.id = id →
      (∀ x ∈ pre, x.id ≠ id) →
        (agregar s id).estado.carrito =
          pre ++ { id := l.id, cantidad := l.cantidad + 1 } :: post := by
    intro pre l post hc hl hpre
    rw [agregar_carrito, carritoAgregar, hc, buscarLinea_append_cons pre post l id hl hpre]
    exact sumarAlPrimero_append_cons pre post l id 1 hl hpre
  refine ⟨?_, hsplit, ?_, ?_⟩
  · intro h
    obtain ⟨pre, l, post, hc, hl, hpre⟩ := existe_primera_linea s.carrito id h
    exact ⟨pre, l, post, hc, hl, hpre, hsplit pre l post hc hl hpre⟩
  · intro h
    rw [agregar_carrito, carritoAgregar, (buscarLinea_none_iff s.carrito id).mpr h]
  · intro menu
    rw [agregar_carrito, agregar_carrito]

/-- Witness of C3: a cart of two lines, the second one receives the unit. -/
theorem c3_agregar_postcondicion_witness :
    (agregar { estadoInicial [] with carrito := [⟨4, 2⟩, ⟨9, 5⟩] } 9).estado.carrito =
      [⟨4, 2⟩, ⟨9, 6⟩] :=
  (c3_agregar_postcondicion { estadoInicial [] with carrito := [⟨4, 2⟩, ⟨9, 5⟩] } 9).2.1
    [⟨4, 2⟩] ⟨9, 5⟩ [] rfl rfl (by decide)

/-- C4. Postcondition of `cambiarCantidadCarrito(id, cambio)`, for every state
whose cart has unique identifiers. With no line for `id` the cart is unchanged.
With a line of quantity `q` for `id`: when `q + cambio > 0` that line holds
`q + cambio` and the other lines and the order are unchanged; when
`q + cambio ≤ 0` that line is removed and the other lines stay, in the same
order. On an empty cart, `agregar(1)` then `cambiarCantidadCarrito(1, -1)`
gives the empty cart, and one more `cambiarCantidadCarrito(1, -1)` leaves it
empty and throws nothing. -/
theorem c4_cambiar_postcondicion (s : Estado) (id cambio : Int)
    (hu : (s.carrito.map (fun l => l.id)).Nodup) :
    ((∀ x ∈ s.carrito, x.id ≠ id) →
      (cambiarCantidadCarrito s id cambio).estado.carrito = s.carrito) ∧
    (∀ pre l post, s.carrito = pre ++ l :: post → l.id = id →
      (0 < l.cantidad + cambio →
        (cambiarCantidadCarrito s id cambio).estado.carrito =
          pre ++ { id := l.id, cantidad := l.cantidad + cambio } :: post) ∧
      (l.cantidad + cambio ≤ 0 →
        (cambiarCantidadCarrito s id cambio).estado.carrito = pre ++ post)) ∧
    (∀ t : Estado, t.carrito = [] →
      (cambiarCantidadCarrito (agregar t 1).estado 1 (-1)).estado.carrito = [] ∧
      (cambiarCantidadCarrito
        (cambiarCantidadCarrito (agregar t 1).estado 1 (-1)).estado 1 (-1)).estado.carrito
          = [] ∧
      (cambiarCantidadCarrito
        (cambiarCantidadCarrito (agregar t 1).estado 1 (-1)).estado 1 (-1)).lanzado
          = false) := by
  refine ⟨?_, ?_, ?_⟩
  · intro h
    rw [cambiarCantidadCarrito_carrito, carritoCambiar,
      (buscarLinea_none_iff s.carrito id).mpr h]
  · intro pre l post hc hl
    have hu2 : IdsUnicos (pre ++ l :: post) := by rw [← hc]; exact hu
    obtain ⟨hpre, hpost⟩ := unicos_append_cons pre post l hu2
    rw [hl] at hpre hpost
    have hb := buscarLinea_append_cons pre post l id hl hpre
    have hs := sumarAlPrimero_append_cons pre post l id cambio hl hpre
    constructor
    · intro hpos
      rw [cambiarCantidadCarrito_carrito, carritoCambiar, hc, hb]
      simp only [not_le.mpr hpos, if_false]
      exact hs
    · intro hneg
      rw [cambiarCantidadCarrito_carrito, carritoCambiar, hc, hb]
      simp only [hneg, if_true]
      rw [sumarAlPrimero_filter, List.filter_append, List.filter_cons]
      simp only [hl, bne_self_eq_false, Bool.false_eq_true, if_false]
      rw [filter_sin_linea id pre hpre, filter_sin_linea id post hpost]
  · intro t ht
    have h1 : (cambiarCantidadCarrito (agregar t 1).estado 1 (-1)).estado.carrito = [] := by
      rw [cambiarCantidadCarrito_carrito, agregar_carrito, ht]
      decide
    exact ⟨h1, cambiarCantidadCarrito_vacio _ 1 (-1) h1⟩

/-- Witness of C4: the middle line of a cart of three lines is removed. -/
theorem c4_cambiar_postcondicion_witness :
    (([⟨4, 2⟩, ⟨9, 5⟩, ⟨1, 1⟩] : List Linea).map (fun l => l.id)).Nodup ∧
    (cambiarCantidadCarrito
      { estadoInicial [] with carrito := [⟨4, 2⟩, ⟨9, 5⟩, ⟨1, 1⟩] } 9 (-7)).estado.carrito =
        [⟨4, 2⟩, ⟨1, 1⟩] :=
  ⟨by decide,
   ((c4_cambiar_postcondicion
      { estadoInicial [] with carrito := [⟨4, 2⟩, ⟨9, 5⟩, ⟨1, 1⟩] } 9 (-7) (by decide)).2.1
      [⟨4, 2⟩] ⟨9, 5⟩ [⟨1, 1⟩] rfl rfl).2 (by decide)⟩

/-- C5, as stated, fails: the cart holds one line of quantity two for the
identifier one; unique identifiers, positive quantities. After `agregar(1)` the
line holds three, and `cambiarCantidadCarrito(1, -3)` leaves the empty cart,
not the cart from before the add. -/
theorem c5_ida_y_vuelta_contraejemplo :
    IdsUnicos [⟨1, 2⟩] ∧ CantidadesPositivas [⟨1, 2⟩] ∧
    buscarLinea (agregar { estadoInicial [] with carrito := [⟨1, 2⟩] } 1).estado.carrito 1
      = some ⟨1, 3⟩ ∧
    (cambiarCantidadCarrito
      (agregar { estadoInicial [] with carrito := [⟨1, 2⟩] } 1).estado 1 (-3)).estado.carrito
      = [] ∧
    (cambiarCantidadCarrito
      (agregar { estadoInicial [] with carrito := [⟨1, 2⟩] } 1).estado 1 (-3)).estado.carrito
      ≠ ({ estadoInicial [] with carrito := [⟨1, 2⟩] } : Estado).carrito := by
  refine ⟨by unfold IdsUnicos; decide, by unfold CantidadesPositivas; decide, ?_, ?_, ?_⟩
  · rw [agregar_carrito]; decide
  · rw [cambiarCantidadCarrito_carrito, agregar_carrito]; decide
  · rw [cambiarCantidadCarrito_carrito, agregar_carrito]; decide

/-- C5, amended. For every state and identifier, `agregar(x)` followed by
`cambiarCantidadCarrito(x, -q)`, with `q` the quantity of the line of `x` after
the add, leaves the cart from before the add without its lines for `x`. When
the cart had no line for `x`, then `q = 1` and the cart from before the add is
restored: same lines, same quantities, same order. -/
theorem c5_ida_y_vuelta (s : Estado) (x : Int) (l : Linea)
    (hq : buscarLinea (agregar s x).estado.carrito x = some l) :
    (cambiarCantidadCarrito (agregar s x).estado x (-l.cantidad)).estado.carrito =
      s.carrito.filter (fun p => p.id != x) ∧
    ((∀ y ∈ s.carrito, y.id ≠ x) →
      l.cantidad = 1 ∧
      (cambiarCantidadCarrito (agregar s x).estado x (-l.cantidad)).estado.carrito =
        s.carrito) := by
  have h1 : (cambiarCantidadCarrito (agregar s x).estado x (-l.cantidad)).estado.carrito =
      s.carrito.filter (fun p => p.id != x) := by
    rw [cambiarCantidadCarrito_carrito, carritoCambiar, hq]
    simp only [add_neg_cancel, le_refl, if_true]
    rw [sumarAlPrimero_filter, agregar_carrito, carritoAgregar_filter]
  refine ⟨h1, ?_⟩
  intro hno
  constructor
  · rw [agregar_carrito, carritoAgregar, (buscarLinea_none_iff s.carrito x).mpr hno] at hq
    have hb := buscarLinea_append_cons s.carrito [] ⟨x, 1⟩ x rfl hno
    rw [hb] at hq
    injection hq with hq
    rw [← hq]
  · rw [h1, filter_sin_linea x s.carrito hno]

/-- Witness of C5, amended: a cart of one line and a new identifier. -/
theorem c5_ida_y_vuelta_witness :
    buscarLinea (agregar { estadoInicial [] with carrito := [⟨4, 2⟩] } 9).estado.carrito 9
      = some ⟨9, 1⟩ ∧
    (cambiarCantidadCarrito
      (agregar { estadoInicial [] with carrito := [⟨4, 2⟩] } 9).estado 9 (-1)).estado.carrito
      = [⟨4, 2⟩] :=
  ⟨by rw [agregar_carrito]; decide,
   ((c5_ida_y_vuelta { estadoInicial [] with carrito := [⟨4, 2⟩] } 9 ⟨9, 1⟩
      (by rw [agregar_carrito]; decide)).2 (by decide)).2⟩

/-- C6, as stated, fails, in two ways. First: the catalog holds two items of
prices `10^16` and `0.5`, both exact decimals, and the cart one unit of each.
Both lines resolve, the sum of price times quantity is `10^16 + 0.5`, and
`renderizarCarrito` writes `10000000000000000.00€`: the addition rounds to the
nearest Number. Second: the catalog holds one item of price `10^21` and the
cart one unit of it. Nothing rounds, and `renderizarCarrito` writes `1e+21€`,
which has no decimal places. -/
theorem c6_total_contraejemplo :
    ((∀ l ∈ estadoRedondeo.carrito, ∃ p ∈ estadoRedondeo.menuCompleto, p.id = l.id) ∧
      totalExacto estadoRedondeo.menuCompleto estadoRedondeo.carrito = 10 ^ 16 + 1 / 2 ∧
      (renderizarCarrito estadoRedondeo).estado.cartTotalPrice = "10000000000000000.00€" ∧
      dosDecimales (totalExacto estadoRedondeo.menuCompleto estadoRedondeo.carrito) ++ "€"
        = "10000000000000000.50€" ∧
      (renderizarCarrito estadoRedondeo).estado.cartTotalPrice ≠
        dosDecimales (totalExacto estadoRedondeo.menuCompleto estadoRedondeo.carrito)
          ++ "€") ∧
    ((∀ l ∈ estadoExponencial.carrito,
        ∃ p ∈ estadoExponencial.menuCompleto, p.id = l.id) ∧
      SinRedondeo estadoExponencial.menuCompleto estadoExponencial.carrito ∧
      totalExacto estadoExponencial.menuCompleto estadoExponencial.carrito = 10 ^ 21 ∧
      (renderizarCarrito estadoExponencial).estado.cartTotalPrice = "1e+21€" ∧
      dosDecimales (totalExacto estadoExponencial.menuCompleto estadoExponencial.carrito)
        ++ "€" = "1000000000000000000000.00€" ∧
      (renderizarCarrito estadoExponencial).estado.cartTotalPrice ≠
        dosDecimales (totalExacto estadoExponencial.menuCompleto estadoExponencial.carrito)
          ++ "€") := by
  have a1 : (renderizarCarrito estadoRedondeo).estado.cartTotalPrice
      = "10000000000000000.00€" := by decide
  have a2 : dosDecimales (totalExacto estadoRedondeo.menuCompleto estadoRedondeo.carrito)
      ++ "€" = "10000000000000000.50€" := by
    rw [totalExacto_redondeo, dosDecimales_redondeo]
    decide
  have b1 : (renderizarCarrito estadoExponencial).estado.cartTotalPrice = "1e+21€" := by
    decide
  have b2 : dosDecimales
      (totalExacto estadoExponencial.menuCompleto estadoExponencial.carrito) ++ "€"
        = "1000000000000000000000.00€" := by
    rw [totalExacto_exponencial, dosDecimales_exponencial]
    decide
  refine ⟨⟨by decide, totalExacto_redondeo, a1, a2, ?_⟩,
    ⟨by decide, sinRedondeo_exponencial, totalExacto_exponencial, b1, b2, ?_⟩⟩
  · rw [a1, a2]
    decide
  · rw [b1, b2]
    decide

/-- C6, amended. For every state whose cart lines all resolve in the catalog,
whose prices are finite Numbers, where no operation of the total rounds (every
quantity, every product of price and quantity and every partial sum, in cart
order, is a binary64 value) and whose sum of price times quantity is below
`10^21` in absolute value: `renderizarCarrito` throws nothing and writes to the
total display that sum with exactly two decimal places followed by `€`. For a
cart with lines there is one row for each line, in order, with the quantity
and the identifier of the line, and the subtotal of a row is the product of
price and quantity with two decimal places followed by `€` when that product
is below `10^21`. For the empty cart the total is `0.00€`. With the catalog of
one item of identifier one and price 9.50, two calls of `agregar(1)` on the
empty cart give the badge two and the total `19.00€`. -/
theorem c6_total (s : Estado)
    (hres : ∀ l ∈ s.carrito, ∃ p ∈ s.menuCompleto, p.id = l.id)
    (hfin : ∀ p ∈ s.menuCompleto, ∃ m e, p.precio = .finito m e)
    (hex : SinRedondeo s.menuCompleto s.carrito)
    (hcota : |totalExacto s.menuCompleto s.carrito| < 10 ^ 21) :
    (renderizarCarrito s).lanzado = false ∧
    (renderizarCarrito s).estado.cartTotalPrice =
      dosDecimales (totalExacto s.menuCompleto s.carrito) ++ "€" ∧
    (s.carrito ≠ [] →
      ∃ filas, (renderizarCarrito s).estado.cartItems = .filas filas ∧
        List.Forall₂
          (fun l f =>
            f.cantidad = l.cantidad ∧ f.idMenos = l.id ∧ f.idMas = l.id ∧
            (|subtotalExacto s.menuCompleto l| < 10 ^ 21 →
              f.subtotalTexto = dosDecimales (subtotalExacto s.menuCompleto l) ++ "€"))
          s.carrito filas) ∧
    (s.carrito = [] → (renderizarCarrito s).estado.cartTotalPrice = "0.00€") ∧
    (∀ (t : Estado) (p : Producto), t.menuCompleto = [p] → p.id = 1 →
      (∃ m e : Int, p.precio = .finito m e ∧ (m : ℚ) * (2 : ℚ) ^ e = 19 / 2) →
      t.carrito = [] →
        (agregar (agregar t 1).estado 1).estado.cartCount = 2 ∧
        (renderizarCarrito (agregar (agregar t 1).estado 1).estado).estado.cartTotalPrice =
          "19.00€") := by
  have hres2 : ∀ l ∈ s.carrito, ∃ p, buscarProducto s.menuCompleto l.id = some p :=
    fun l hl => buscarProducto_de_miembro _ _ (hres l hl)
  refine ⟨?_, renderizarCarrito_total_exacto s hres hfin hex hcota, ?_, ?_, ?_⟩
  · cases hl : (renderizarCarrito s).lanzado with
    | false => rfl
    | true =>
      obtain ⟨l, hl1, hl2⟩ := (renderizarCarrito_lanzado_iff s).mp hl
      obtain ⟨p, hp, hpid⟩ := hres l hl1
      exact absurd hpid (hl2 p hp)
  · intro hc
    rw [renderizarCarrito_resuelto s hc hres2]
    refine ⟨_, rfl, ?_⟩
    rw [List.forall₂_map_right_iff, List.forall₂_same]
    intro l hl
    obtain ⟨h1, h2, h3⟩ := filaEsperada_cantidad s.menuCompleto l
    refine ⟨h1, h2, h3, ?_⟩
    intro hsub
    obtain ⟨p, hp⟩ := hres2 l hl
    obtain ⟨m, e, hm1, hm2⟩ := subtotalDe_exacto s.menuCompleto l p hp
      (hfin p (buscarProducto_miembro _ _ p hp).1) (hex.1 l hl).1 (hex.1 l hl).2
    rw [filaEsperada_subtotal s.menuCompleto l ⟨p, hp⟩, hm1,
      toFixed2_eq_dosDecimales m e (by rw [hm2]; exact hsub), hm2]
  · intro hc
    rw [renderizarCarrito_vacio s hc]
  · intro t p hm hid hp hc
    exact escenario_dos_unidades t p hm hid hp hc

/-- Witness of C6, amended: one item of price 9.50 and a line of quantity two. -/
theorem c6_total_witness :
    (renderizarCarrito estadoDosUnidades).estado.cartTotalPrice =
      dosDecimales (totalExacto estadoDosUnidades.menuCompleto estadoDosUnidades.carrito)
        ++ "€" :=
  (c6_total estadoDosUnidades
    (by decide)
    (by
      intro p hp
      have : p = plato 1 (.finito 19 (-1)) := by
        simpa [estadoDosUnidades, estadoInicial] using hp
      exact ⟨19, -1, by rw [this]; rfl⟩)
    (sinRedondeo_dos_unidades (plato 1 (.finito 19 (-1))) rfl
      ⟨19, -1, rfl, by norm_num⟩).1
    (by
      have h := (sinRedondeo_dos_unidades (plato 1 (.finito 19 (-1))) rfl
        ⟨19, -1, rfl, by norm_num⟩).2
      show |totalExacto [plato 1 (.finito 19 (-1))] [⟨1, 2⟩]| < 10 ^ 21
      rw [h]
      norm_num)).2.1

/-- C7. For every state, `renderizarCarrito` throws exactly when the cart has a
line whose identifier is the identifier of no catalog item. When it throws, it
has written nothing: the state, total display included, is as before. When it
does not throw on a cart with lines, there is one row for each line, in order,
and the total written is the `toFixed(2)` text of the running total over all
the lines. For the empty cart it never throws, whatever the catalog. -/
theorem c7_fallo_resolucion (s : Estado) :
    ((renderizarCarrito s).lanzado = true ↔
      ∃ l ∈ s.carrito, ∀ p ∈ s.menuCompleto, p.id ≠ l.id) ∧
    ((renderizarCarrito s).lanzado = true → (renderizarCarrito s).estado = s) ∧
    ((renderizarCarrito s).lanzado = false → s.carrito ≠ [] →
      ∃ filas, (renderizarCarrito s).estado.cartItems = .filas filas ∧
        filas.map (fun f => f.idMenos) = s.carrito.map (fun l => l.id) ∧
        filas.map (fun f => f.cantidad) = s.carrito.map (fun l => l.cantidad) ∧
        (renderizarCarrito s).estado.cartTotalPrice =
          toFixed2 (totalAcumuladoDe s.menuCompleto s.carrito) ++ "€") ∧
    (s.carrito = [] → (renderizarCarrito s).lanzado = false) := by
  refine ⟨renderizarCarrito_lanzado_iff s, renderizarCarrito_lanzado_estado s, ?_, ?_⟩
  · intro hl hne
    have hres : ∀ l ∈ s.carrito, ∃ p, buscarProducto s.menuCompleto l.id = some p := by
      intro l hl1
      cases hb : buscarProducto s.menuCompleto l.id with
      | some p => exact ⟨p, rfl⟩
      | none =>
        have := (renderizarCarrito_lanzado_iff s).mpr
          ⟨l, hl1, (buscarProducto_none_iff _ _).mp hb⟩
        rw [hl] at this
        exact Bool.noConfusion this
    rw [renderizarCarrito_resuelto s hne hres]
    refine ⟨_, rfl, ?_, ?_, rfl⟩
    · rw [List.map_map]
      exact List.map_congr_left (fun l _ => (filaEsperada_cantidad s.menuCompleto l).2.1)
    · rw [List.map_map]
      exact List.map_congr_left (fun l _ => (filaEsperada_cantidad s.menuCompleto l).1)
  · intro hc
    rw [renderizarCarrito_vacio s hc]

/-- Witness of C7: a line for the identifier five and a catalog without it. -/
theorem c7_fallo_resolucion_witness :
    (renderizarCarrito
      { estadoInicial [plato 1 (.finito 19 (-1))] with
        carrito := [⟨1, 2⟩, ⟨5, 1⟩] }).lanzado = true :=
  (c7_fallo_resolucion
    { estadoInicial [plato 1 (.finito 19 (-1))] with
      carrito := [⟨1, 2⟩, ⟨5, 1⟩] }).1.mpr
    ⟨⟨5, 1⟩, by simp [estadoInicial], by simp [estadoInicial, plato]⟩

/-- C8. For every list of items, `renderizarMenu` puts in the principal
container one card for each item whose `categoria` is `Principales` and in the
dessert container one card for each item whose `categoria` is `Postres`: the
cards of a container are, in order, the cards of the items of its category,
each with the image, name, description, `toFixed(2)` price and identifier of
its item. Each of the two lists of items is a sublist of the input (same
relative order, no sort) and holds exactly the items of its category. No item
is in both, and an item of another category is in neither. -/
theorem c8_particion_menu (s : Estado) (items : List Producto) :
    ∃ principales postres : List Producto,
      List.Forall₂
        (fun p t => t.imagen = p.imagen ∧ t.nombre = p.nombre ∧
          t.descripcion = p.descripcion ∧ t.precioTexto = toFixed2 p.precio ++ "€" ∧
          t.idAgregar = p.id)
        principales (renderizarMenu s items).containerPrincipales ∧
      List.Forall₂
        (fun p t => t.imagen = p.imagen ∧ t.nombre = p.nombre ∧
          t.descripcion = p.descripcion ∧ t.precioTexto = toFixed2 p.precio ++ "€" ∧
          t.idAgregar = p.id)
        postres (renderizarMenu s items).containerPostres ∧
      principales.Sublist items ∧ postres.Sublist items ∧
      (∀ p, p ∈ principales ↔ p ∈ items ∧ p.categoria = "Principales") ∧
      (∀ p, p ∈ postres ↔ p ∈ items ∧ p.categoria = "Postres") ∧
      (∀ p, principales.count p =
        if p.categoria = "Principales" then items.count p else 0) ∧
      (∀ p, postres.count p = if p.categoria = "Postres" then items.count p else 0) ∧
      (∀ p, ¬ (p ∈ principales ∧ p ∈ postres)) ∧
      (∀ p, p.categoria ≠ "Principales" → p.categoria ≠ "Postres" →
        p ∉ principales ∧ p ∉ postres) := by
  refine ⟨items.filter (fun item => item.categoria == "Principales"),
    items.filter (fun item => item.categoria == "Postres"), ?_, ?_,
    List.filter_sublist _, List.filter_sublist _, ?_, ?_, ?_, ?_, ?_, ?_⟩
  · show List.Forall₂ _ _ (generarHTML _)
    unfold generarHTML
    rw [List.forall₂_map_right_iff, List.forall₂_same]
    intro p _
    exact ⟨rfl, rfl, rfl, rfl, rfl⟩
  · show List.Forall₂ _ _ (generarHTML _)
    unfold generarHTML
    rw [List.forall₂_map_right_iff, List.forall₂_same]
    intro p _
    exact ⟨rfl, rfl, rfl, rfl, rfl⟩
  · intro p
    simp [List.mem_filter]
  · intro p
    simp [List.mem_filter]
  · intro p
    split
    · rename_i h
      exact List.count_filter (by simpa using h)
    · rename_i h
      rw [List.count_eq_zero]
      intro hp
      exact h (by simpa using (List.mem_filter.mp hp).2)
  · intro p
    split
    · rename_i h
      exact List.count_filter (by simpa using h)
    · rename_i h
      rw [List.count_eq_zero]
      intro hp
      exact h (by simpa using (List.mem_filter.mp hp).2)
  · intro p hp
    have h1 : p.categoria = "Principales" := by simpa using (List.mem_filter.mp hp.1).2
    have h2 : p.categoria = "Postres" := by simpa using (List.mem_filter.mp hp.2).2
    rw [h1] at h2
    exact absurd h2 (by decide)
  · intro p h1 h2
    constructor
    · intro hp
      exact h1 (by simpa using (List.mem_filter.mp hp).2)
    · intro hp
      exact h2 (by simpa using (List.mem_filter.mp hp).2)

/-- C9. For every state: with an empty cart, the checkout handler adds the
empty-cart notice and changes nothing else, and throws nothing; with a cart
that has lines, it adds the success notice, throws nothing, and ends with the
cart empty, the badge at zero, the panel closed and the overlay hidden. The
two notices are different texts. -/
theorem c9_checkout (s : Estado) :
    (s.carrito = [] →
      checkout s = ⟨{ s with alertas := s.alertas ++ [avisoVacio] }, false⟩) ∧
    (s.carrito ≠ [] →
      (checkout s).lanzado = false ∧
      (checkout s).estado.alertas = s.alertas ++ [avisoExito] ∧
      (checkout s).estado.carrito = [] ∧
      (checkout s).estado.cartCount = 0 ∧
      (checkout s).estado.sideOpen = false ∧
      (checkout s).estado.overDisplay = "none" ∧
      (checkout s).estado.menuCompleto = s.menuCompleto) ∧
    avisoVacio ≠ avisoExito := by
  refine ⟨checkout_vacio s, ?_, by decide⟩
  intro h
  rw [checkout_con_lineas s h]
  refine ⟨rfl, ?_, ?_, ?_, rfl, rfl, ?_⟩
  · simp [cerrarCarrito]
  · simp [cerrarCarrito]
  · simp [cerrarCarrito, totalQty]
  · simp [cerrarCarrito]

/-- Witness of C9: a checkout with one line in the cart and the panel open. -/
theorem c9_checkout_witness :
    (checkout { estadoInicial [] with carrito := [⟨1, 2⟩], sideOpen := true }).estado.cartCount
      = 0 :=
  ((c9_checkout { estadoInicial [] with carrito := [⟨1, 2⟩], sideOpen := true }).2.1
    (by simp [estadoInicial])).2.2.2.1

/-- C10. For every state, catalog and panel state: after `agregar`, after
`cambiarCantidadCarrito` (the calls that leave the cart alone included), after
the confirmed clear and after a checkout with lines in the cart, the value
written to the badge is the sum of `cantidad` over the lines of the resulting
cart, which is zero for the empty cart. -/
theorem c10_badge (s : Estado) :
    (∀ id : Int, (agregar s id).estado.cartCount =
      ((agregar s id).estado.carrito.map (fun l => l.cantidad)).sum) ∧
    (∀ id cambio : Int, (cambiarCantidadCarrito s id cambio).estado.cartCount =
      ((cambiarCantidadCarrito s id cambio).estado.carrito.map (fun l => l.cantidad)).sum) ∧
    ((confirmarVaciar s).estado.cartCount =
        ((confirmarVaciar s).estado.carrito.map (fun l => l.cantidad)).sum ∧
      (confirmarVaciar s).estado.cartCount = 0) ∧
    (s.carrito ≠ [] →
      (checkout s).estado.cartCount =
        ((checkout s).estado.carrito.map (fun l => l.cantidad)).sum ∧
      (checkout s).estado.cartCount = 0) := by
  refine ⟨?_, ?_, ?_, ?_⟩
  · intro id
    rw [agregar_cartCount, totalQty_eq_sum]
  · intro id cambio
    rw [cambiarCantidadCarrito_cartCount, totalQty_eq_sum]
  · have h0 : (confirmarVaciar s).estado.cartCount = 0 := by
      rw [confirmarVaciar_eq]
      simp [totalQty]
    rw [confirmarVaciar_carrito, h0]
    exact ⟨rfl, rfl⟩
  · intro h
    have h0 : (checkout s).estado.cartCount = 0 := by
      rw [checkout_con_lineas s h]
      simp [cerrarCarrito, totalQty]
    rw [checkout_carrito, h0]
    exact ⟨rfl, rfl⟩

/-- Witness of C10: a checkout with two lines in the cart. -/
theorem c10_badge_witness :
    (checkout { estadoInicial [] with carrito := [⟨1, 2⟩, ⟨3, 4⟩] }).estado.cartCount =
      ((checkout { estadoInicial [] with carrito := [⟨1, 2⟩, ⟨3, 4⟩] }).estado.carrito.map
        (fun l => l.cantidad)).sum :=
  ((c10_badge { estadoInicial [] with carrito := [⟨1, 2⟩, ⟨3, 4⟩] }).2.2.2
    (by simp [estadoInicial])).1

end OrderNow

